import Mathlib

/-!
# A verification development for `shell.c`

A shallow embedding of the job-control core of the simplified shell
(`src/shell.c`): the process and job records, the status reconciler
(`mark_process_status`, `wait_for_job`), the pipeline launcher (`launch_job`),
the command parser (`parse_cmd`, `parse_cmd_chevron`, `is_foreground`) and the
redirection resolver (`entree_sortie`).

Conventions of the embedding.
* A C `int`, `pid_t` or `char` flag is an `Int`; a flag is true when it is not `0`.
* A singly linked chain (`next` pointers ending in `NULL`) is a `List`.
* A character buffer is a `List Char`; the C string it holds is what precedes
  its first NUL (`c_str`).
* Calls into the operating system are answered by explicit oracles, and what the
  program asks of the system is recorded in the result.
-/

set_option autoImplicit false

namespace ShellProjet

/-! ## Data model -/

/-- One stage of a pipeline (`struct process`, shell.c 37-45).  The `next`
pointer is the tail of the list the record sits in. -/
structure process where
  argv : List (List Char)
  pid : Int
  completed : Int
  stopped : Int
  status : Int
deriving DecidableEq, Repr

/-- One pipeline (`struct job`, shell.c 48-57).  The `next` pointer is the tail
of the job list; `tmodes` is the saved terminal mode, kept abstract. -/
structure job where
  command : List Char
  first_process : List process
  pgid : Int
  notified : Int
  tmodes : Nat
  stdin : Int
  stdout : Int
  stderr : Int
deriving DecidableEq, Repr

/-- The macros of `<sys/wait.h>` and `<errno.h>` that `mark_process_status`
uses.  They belong to the host C library, not to the program, so the embedding
takes them as a parameter. -/
structure Host where
  WIFSTOPPED : Int → Bool
  WIFSIGNALED : Int → Bool
  WTERMSIG : Int → Int
  ECHILD : Int

/-- The encoding of wait statuses on Linux with glibc: a status is a stop
status when its low byte is `0x7f`, a signal termination when its low seven
bits are between 1 and 126, and `ECHILD` is 10. -/
def linux : Host where
  WIFSTOPPED := fun s => decide (s % 256 = 127)
  WIFSIGNALED := fun s => decide (1 ≤ s % 128 ∧ s % 128 ≤ 126)
  WTERMSIG := fun s => s % 128
  ECHILD := 10

/-- What the shell writes on its standard error stream. -/
inductive Diag where
  | terminated_by_signal (pid : Int) (sig : Int)
  | no_child_process (pid : Int)
  | perror (what : String)
  | job_info (pgid : Int) (status : String) (command : List Char)
deriving DecidableEq, Repr

/-- A call that acts on the controlling terminal or signals a process group. -/
inductive TermOp where
  | tcsetpgrp (pgid : Int)
  | tcsetattr (modes : Nat)
  | tcgetattr
  | kill_cont (pgid : Int)
deriving DecidableEq, Repr

/-- The global state of the shell: the job list headed by `first_job`, what
was printed on standard error and on standard output so far (oldest first),
and the terminal calls made so far. -/
structure Shell where
  first_job : List job
  err : List Diag
  out : List String
  term : List TermOp
deriving DecidableEq, Repr

/-- One return of `waitpid (WAIT_ANY, &status, WUNTRACED)`: the pid returned,
the content of `status` afterwards and the value of `errno` afterwards. -/
structure WaitResult where
  pid : Int
  status : Int
  errno : Int
deriving DecidableEq, Repr

/-! ## Job predicates (shell.c 131-149) -/

/-- The loop of `job_is_stopped`: 0 at the first process that is neither
completed nor stopped, 1 when the chain is exhausted. -/
def job_is_stopped_loop : List process → Int
  | [] => 1
  | p :: ps => if p.completed = 0 ∧ p.stopped = 0 then 0 else job_is_stopped_loop ps

/-- `job_is_stopped` (shell.c 131-138). -/
def job_is_stopped (j : job) : Int :=
  job_is_stopped_loop j.first_process

/-- The loop of `job_is_completed`: 0 at the first process that is not
completed, 1 when the chain is exhausted. -/
def job_is_completed_loop : List process → Int
  | [] => 1
  | p :: ps => if p.completed = 0 then 0 else job_is_completed_loop ps

/-- `job_is_completed` (shell.c 141-149). -/
def job_is_completed (j : job) : Int :=
  job_is_completed_loop j.first_process

/-! ## The status reconciler (shell.c 153-197) -/

/-- The update `mark_process_status` applies to the record it found
(shell.c 165-173): the status is stored, then either `stopped` or `completed`
is set to 1. -/
def mark_record (h : Host) (status : Int) (p : process) : process :=
  if h.WIFSTOPPED status then { p with status := status, stopped := 1 }
  else { p with status := status, completed := 1 }

/-- The message printed when the record is updated: a termination by signal is
reported with its signal number (shell.c 171-172). -/
def mark_message (h : Host) (pid status : Int) : List Diag :=
  if h.WIFSTOPPED status then []
  else if h.WIFSIGNALED status then [Diag.terminated_by_signal pid (h.WTERMSIG status)]
  else []

/-- The inner loop of `mark_process_status` (shell.c 162-175) over one
pipeline: the chain with the first record of that pid updated, or `none` when
no record of the chain has that pid. -/
def mark_process_status_procs (h : Host) (pid status : Int) :
    List process → Option (List process)
  | [] => none
  | p :: ps =>
    if p.pid = pid then some (mark_record h status p :: ps)
    else (mark_process_status_procs h pid status ps).map (fun ps' => p :: ps')

/-- The outer loop of `mark_process_status` (shell.c 161-175) over the job
list. -/
def mark_process_status_jobs (h : Host) (pid status : Int) :
    List job → Option (List job)
  | [] => none
  | j :: js =>
    match mark_process_status_procs h pid status j.first_process with
    | some ps' => some ({ j with first_process := ps' } :: js)
    | none => (mark_process_status_jobs h pid status js).map (fun js' => j :: js')

/-- `mark_process_status` (shell.c 153-187), with the value of `errno` passed
in: the value returned and the state afterwards. -/
def mark_process_status (h : Host) (errno : Int) (sh : Shell) (pid status : Int) :
    Int × Shell :=
  if 0 < pid then
    match mark_process_status_jobs h pid status sh.first_job with
    | some js' => (0, { sh with first_job := js', err := sh.err ++ mark_message h pid status })
    | none => (-1, { sh with err := sh.err ++ [Diag.no_child_process pid] })
  else if pid = 0 ∨ errno = h.ECHILD then (-1, sh)
  else (-1, { sh with err := sh.err ++ [Diag.perror "waitpid"] })

/-- `wait_for_job` (shell.c 189-197) for the job at position `i` of the job
list.  The list holds the successive results of `waitpid`; when it is used up
the next `waitpid` never returns and the result is `none`.  The result is the
state on return and the results not consumed. -/
def wait_for_job (h : Host) (i : Nat) : List WaitResult → Shell →
    Option (Shell × List WaitResult)
  | [], _ => none
  | r :: rs, sh =>
    let m := mark_process_status h r.errno sh r.pid r.status
    match m.2.first_job[i]? with
    | none => none
    | some j =>
      if m.1 = 0 ∧ job_is_stopped j = 0 ∧ job_is_completed j = 0 then
        wait_for_job h i rs m.2
      else some (m.2, rs)

/-- Some job of the list tracks a process of that pid. -/
def tracks (js : List job) (pid : Int) : Prop :=
  ∃ j ∈ js, ∃ p ∈ j.first_process, p.pid = pid

/-- All process records of a job list, in job order then pipeline order. -/
def all_processes (js : List job) : List process :=
  (js.map (fun j => j.first_process)).flatten

/-- The two flags of a record are not both true. -/
def flags_consistent (p : process) : Prop :=
  ¬ (p.completed ≠ 0 ∧ p.stopped ≠ 0)

instance (p : process) : Decidable (flags_consistent p) := by
  unfold flags_consistent; infer_instance

/-- A job list of one job with one process of pid 5 that is running. -/
def running_shell : Shell where
  first_job := [{ command := "sleep".toList,
                  first_process := [{ argv := ["sleep".toList, "5".toList], pid := 5,
                                      completed := 0, stopped := 0, status := 0 }],
                  pgid := 5, notified := 0, tmodes := 0, stdin := 0, stdout := 1, stderr := 2 }]
  err := []
  out := []
  term := []

/-- A job list of one job with one process of pid 5 that is stopped. -/
def stopped_shell : Shell where
  first_job := [{ command := "sleep".toList,
                  first_process := [{ argv := ["sleep".toList, "5".toList], pid := 5,
                                      completed := 0, stopped := 1, status := 127 }],
                  pgid := 5, notified := 0, tmodes := 0, stdin := 0, stdout := 1, stderr := 2 }]
  err := []
  out := []
  term := []

/-- A job whose single process has completed and never stopped. -/
def done_job : job where
  command := "ls".toList
  first_process := [{ argv := ["ls".toList], pid := 5, completed := 1, stopped := 0, status := 0 }]
  pgid := 5
  notified := 0
  tmodes := 0
  stdin := 0
  stdout := 1
  stderr := 2

/-! ## The pipeline launcher (shell.c 236-343) -/

/-- The arguments `launch_job` passes to `launch_process` in the child forked
for one stage (shell.c 307-308). -/
structure Launch where
  argv : List (List Char)
  pgid : Int
  infile : Int
  outfile : Int
  errfile : Int
  foreground : Int
deriving DecidableEq, Repr

/-- The ways a run of a piece of the shell ends: control returns with a
value, the shell calls `perror` and `exit`, or the running process is the
forked child, which enters `launch_process` and never comes back. -/
inductive Outcome (α : Type) where
  | ok (a : α)
  | exit (code : Int) (what : String)
  | child (l : Launch)
deriving DecidableEq, Repr

/-- What the launcher depends on: the globals set by `init_shell`, and the
answers of the operating system.  `pipe k` is the answer to the call number
`k` of `pipe ()`, the pair `(mypipe[0], mypipe[1])` or `none` for a failure;
`fork k` is the value returned by the call number `k` of `fork ()`;
`tcgetattr` is the terminal mode read back after a foreground job; `kill` is
the value returned by `kill`. -/
structure Sys where
  shell_is_interactive : Int
  shell_pgid : Int
  shell_tmodes : Nat
  pipe : Nat → Option (Int × Int)
  fork : Nat → Int
  tcgetattr : Nat
  kill : Int

/-- The variables of the loop of `launch_job`, and what it did so far:
`done` are the records already visited (with their pid stored), `pgid` is
`j->pgid`, `launched` the children started, `pipes` the pipes created and
`closed` the descriptors closed by the shell, all oldest first. -/
structure Spawn where
  done : List process
  pgid : Int
  infile : Int
  mypipe : Int × Int
  launched : List Launch
  pipes : List (Int × Int)
  closed : List Int
deriving DecidableEq, Repr

/-- The `for` loop of `launch_job` (shell.c 288-333) over the processes still
to start.  A stage that has a successor gets a fresh pipe and writes to its
`mypipe[1]`; the last stage writes to `j->stdout`; after each stage `infile`
becomes `mypipe[0]`. -/
def launch_job_loop (sys : Sys) (foreground : Int) (j : job) :
    List process → Spawn → Outcome Spawn
  | [], st => Outcome.ok st
  | p :: ps, st =>
    match (if ps = [] then some st.mypipe else sys.pipe st.pipes.length) with
    | none => Outcome.exit 1 "pipe"
    | some mypipe =>
      let outfile := if ps = [] then j.stdout else mypipe.2
      let pid := sys.fork st.done.length
      let l : Launch := {
        argv := p.argv, pgid := st.pgid, infile := st.infile, outfile := outfile,
        errfile := j.stderr, foreground := foreground }
      if pid = 0 then Outcome.child l
      else if pid < 0 then Outcome.exit 1 "fork"
      else
        launch_job_loop sys foreground j ps {
          done := st.done ++ [{ p with pid := pid }]
          pgid := if sys.shell_is_interactive ≠ 0 ∧ st.pgid = 0 then pid else st.pgid
          infile := mypipe.1
          mypipe := mypipe
          launched := st.launched ++ [l]
          pipes := if ps = [] then st.pipes else st.pipes ++ [mypipe]
          closed := st.closed ++ (if st.infile ≠ j.stdin then [st.infile] else [])
            ++ (if outfile ≠ j.stdout then [outfile] else []) }

/-- `put_job_in_foreground` (shell.c 201-224) for the job at position `i`;
`none` when the wait never returns. -/
def put_job_in_foreground (h : Host) (sys : Sys) (waits : List WaitResult) (sh : Shell)
    (i : Nat) (cont : Int) : Option (Shell × List WaitResult) :=
  match sh.first_job[i]? with
  | none => none
  | some j =>
    let sh1 : Shell :=
      if cont ≠ 0 then
        { sh with
          term := sh.term ++ [TermOp.tcsetpgrp j.pgid, TermOp.tcsetattr j.tmodes,
            TermOp.kill_cont j.pgid]
          err := sh.err ++ (if sys.kill < 0 then [Diag.perror "kill (SIGCONT)"] else []) }
      else { sh with term := sh.term ++ [TermOp.tcsetpgrp j.pgid] }
    match wait_for_job h i waits sh1 with
    | none => none
    | some (sh2, rest) =>
      match sh2.first_job[i]? with
      | none => none
      | some j2 =>
        some ({ sh2 with
                first_job := sh2.first_job.set i { j2 with tmodes := sys.tcgetattr }
                term := sh2.term ++ [TermOp.tcsetpgrp sys.shell_pgid, TermOp.tcgetattr,
                  TermOp.tcsetattr sys.shell_tmodes] }, rest)

/-- `put_job_in_background` (shell.c 227-233) for the job at position `i`. -/
def put_job_in_background (sys : Sys) (sh : Shell) (i : Nat) (cont : Int) : Option Shell :=
  match sh.first_job[i]? with
  | none => none
  | some j =>
    let sh1 : Shell := { sh with out := sh.out ++ ["Le job a été mis en background.\n"] }
    if cont ≠ 0 then
      some { sh1 with
             term := sh1.term ++ [TermOp.kill_cont j.pgid]
             err := sh1.err ++ (if sys.kill < 0 then [Diag.perror "kill (SIGCONT)"] else []) }
    else some sh1

/-- What `launch_job` did: the children started, the pipes created, the
descriptors closed by the shell, the state after the line `launched` was
printed, and the state after the final wait (`none` when that wait never
returns) with the `waitpid` results left. -/
structure Launched where
  launched : List Launch
  pipes : List (Int × Int)
  closed : List Int
  started : Shell
  finished : Option (Shell × List WaitResult)
deriving DecidableEq, Repr

/-- `launch_job` (shell.c 282-343) for the job at position `i` of the job
list.  `mypipe` is the indeterminate initial content of the local array
`mypipe`. -/
def launch_job (h : Host) (sys : Sys) (waits : List WaitResult) (mypipe : Int × Int)
    (sh : Shell) (i : Fin sh.first_job.length) (foreground : Int) : Outcome Launched :=
  let j := sh.first_job.get i
  match launch_job_loop sys foreground j j.first_process {
      done := [], pgid := j.pgid, infile := j.stdin, mypipe := mypipe,
      launched := [], pipes := [], closed := [] } with
  | Outcome.exit code what => Outcome.exit code what
  | Outcome.child l => Outcome.child l
  | Outcome.ok st =>
    let j1 : job := { j with first_process := st.done, pgid := st.pgid }
    let sh1 : Shell := { sh with
      first_job := sh.first_job.set i j1
      err := sh.err ++ [Diag.job_info j1.pgid "launched" j1.command] }
    Outcome.ok {
      launched := st.launched
      pipes := st.pipes
      closed := st.closed
      started := sh1
      finished :=
        if sys.shell_is_interactive = 0 then wait_for_job h i waits sh1
        else if foreground ≠ 0 then put_job_in_foreground h sys waits sh1 i 0
        else (put_job_in_background sys sh1 i 0).map (fun s => (s, waits)) }

/-! ## The command parser (shell.c 347-368, 424-435) -/

/-- The terminating character of a C string. -/
def NUL : Char := Char.ofNat 0

/-- The C string held by a character buffer: what precedes the first NUL. -/
def c_str (buf : List Char) : List Char :=
  buf.takeWhile (fun c => decide (c ≠ NUL))

/-- `strlen` of a character buffer. -/
def strlen (buf : List Char) : Nat :=
  (c_str buf).length

/-- One call of `strtok` on what is left of the string: leading delimiters are
skipped; if nothing is left there is no token; otherwise the token runs to the
next delimiter, which is overwritten by NUL, and the scan resumes after it. -/
def strtok (delim s : List Char) : Option (List Char × List Char) :=
  match s.dropWhile (fun c => decide (c ∈ delim)) with
  | [] => none
  | c :: cs =>
    some ((c :: cs).takeWhile (fun x => decide (x ∉ delim)),
      ((c :: cs).dropWhile (fun x => decide (x ∉ delim))).drop 1)

/-- The `while` loop shared by `parse_cmd` and `parse_cmd_chevron`: tokens are
stored until `strtok` returns `NULL`.  The first argument bounds the number of
iterations; the callers pass the length of the string, and every token uses up
at least one character. -/
def parse_loop (delim : List Char) : Nat → List Char → List (List Char)
  | 0, _ => []
  | n + 1, s =>
    match strtok delim s with
    | none => []
    | some (tok, rest) => tok :: parse_loop delim n rest

/-- The tokens of a buffer for a set of delimiters, as stored in an array of
64 pointers: the tokens and the final `NULL` must fit, otherwise the write is
out of bounds and the result is `none`. -/
def parse_with (delim : List Char) (command : List Char) : Option (List (List Char)) :=
  let toks := parse_loop delim (strlen command) (c_str command)
  if toks.length < 64 then some toks else none

/-- `parse_cmd` (shell.c 347-356): the separators are newline and space. -/
def parse_cmd (command : List Char) : Option (List (List Char)) :=
  parse_with [Char.ofNat 10, ' '] command

/-- `parse_cmd_chevron` (shell.c 359-368): the separators are newline, space,
`<` and `>`. -/
def parse_cmd_chevron (command : List Char) : Option (List (List Char)) :=
  parse_with [Char.ofNat 10, ' ', '<', '>'] command

/-- The C string a buffer holds once `strtok` went over it: the first token
found is now terminated by NUL, so the string is the leading delimiters and
that token; if no token was found the buffer is intact. -/
def after_strtok (delim : List Char) (command : List Char) : List Char :=
  match strtok delim (c_str command) with
  | none => c_str command
  | some (tok, _) => (c_str command).takeWhile (fun c => decide (c ∈ delim)) ++ tok

/-- `is_foreground` (shell.c 424-435): the value returned and the buffer
afterwards.  With fewer than two characters the index `strlen - 2` is outside
the buffer and the behaviour is undefined (`none`). -/
def is_foreground (commande : List Char) : Option (Int × List Char) :=
  if strlen commande < 2 then none
  else if commande[strlen commande - 2]? = some '&' then
    some (0, commande.set (strlen commande - 2) NUL)
  else some (1, commande)

/-- The tokens of a string for a set of delimiters, computed character by
character: `cur` is the token being read.  Used to reason about
`parse_loop`. -/
def tokens_from (delim : List Char) : List Char → List Char → List (List Char)
  | [], cur => if cur = [] then [] else [cur]
  | c :: cs, cur =>
    if c ∈ delim then
      (if cur = [] then tokens_from delim cs [] else cur :: tokens_from delim cs [])
    else tokens_from delim cs (cur ++ [c])

/-- The standard descriptors of `<unistd.h>`. -/
def STDIN_FILENO : Int := 0

/-- Standard output. -/
def STDOUT_FILENO : Int := 1

/-- Standard error. -/
def STDERR_FILENO : Int := 2

/-- The flags of `open` the program uses, and `O_TRUNC`, which it does not. -/
inductive OFlag where
  | O_RDONLY
  | O_WRONLY
  | O_CREAT
  | O_TRUNC
deriving DecidableEq, Repr

/-- A system call made by the resolver, with its arguments and the value it
returned.  The path of `opened` is `none` for a `NULL` pointer; the flags are
the operands of the bitwise or; the mode is `none` for the two-argument form
of `open`. -/
inductive Syscall where
  | opened (path : Option (List Char)) (flags : List OFlag) (mode : Option Nat) (ret : Int)
  | dup (fd : Int) (ret : Int)
deriving DecidableEq, Repr

/-- `possede_chevron_gauche` (shell.c 371-380). -/
def possede_chevron_gauche (argv : List (List Char)) : Bool :=
  match argv with
  | [] => false
  | a :: rest => if a = ['<'] then true else possede_chevron_gauche rest

/-- `possede_chevron_droit` (shell.c 383-392). -/
def possede_chevron_droit (argv : List (List Char)) : Bool :=
  match argv with
  | [] => false
  | a :: rest => if a = ['>'] then true else possede_chevron_droit rest

/-- `entree_sortie` (shell.c 395-421): the job afterwards and the system calls
made, in order.  `os k` is the value returned by the system call number `k`
of this run.  `argv_job[1]` is the second token, or `NULL` when there is
exactly one token; with no token at all the slot lies behind the terminating
`NULL` and holds whatever was there before, which the embedding leaves
undefined (`none`). -/
def entree_sortie (os : Nat → Int) (first_job : job) (argv2 argv_job : List (List Char)) :
    Option (job × List Syscall) :=
  let j : job := { first_job with stderr := STDERR_FILENO }
  if possede_chevron_gauche argv2 = true ∧ possede_chevron_droit argv2 = true then
    match argv_job with
    | [] => none
    | _ :: _ =>
      some ({ j with stdin := os 1, stdout := os 3 },
        [Syscall.opened argv_job[1]? [OFlag.O_RDONLY] none (os 0),
         Syscall.dup (os 0) (os 1),
         Syscall.opened argv_job[1]? [OFlag.O_WRONLY, OFlag.O_CREAT] (some 0o644) (os 2),
         Syscall.dup (os 2) (os 3)])
  else if possede_chevron_gauche argv2 = true then
    match argv_job with
    | [] => none
    | _ :: _ =>
      some ({ j with stdin := os 1, stdout := STDOUT_FILENO },
        [Syscall.opened argv_job[1]? [OFlag.O_RDONLY] none (os 0),
         Syscall.dup (os 0) (os 1)])
  else if possede_chevron_droit argv2 = true then
    match argv_job with
    | [] => none
    | _ :: _ =>
      some ({ j with stdout := os 1, stdin := STDIN_FILENO },
        [Syscall.opened argv_job[1]? [OFlag.O_WRONLY, OFlag.O_CREAT] (some 0o777) (os 0),
         Syscall.dup (os 0) (os 1)])
  else some ({ j with stdin := STDIN_FILENO, stdout := STDOUT_FILENO }, [])

/-! ## The child process (shell.c 236-279) -/

/-- A call made by the forked child in `launch_process`.  The file of `execvp`
is `none` for a `NULL` pointer. -/
inductive ChildOp where
  | setpgid (pid pgid : Int)
  | tcsetpgrp (pgid : Int)
  | signal_default (sig : String)
  | dup2 (oldfd newfd : Int)
  | close (fd : Int)
  | execvp (file : Option (List Char)) (argv : List (List Char))
  | perror (what : String)
  | exit (code : Int)
deriving DecidableEq, Repr

/-- `launch_process` (shell.c 236-279): the calls the child makes, in order.
`getpid` is the pid of the child; `execvp_returns` tells whether `execvp`
fails and returns, in which case the child prints the error and exits with
status 1.  `p->argv[0]` is the first token, or `NULL` when there is none. -/
def launch_process (sys : Sys) (getpid : Int) (execvp_returns : Bool) (l : Launch) :
    List ChildOp :=
  (if sys.shell_is_interactive ≠ 0 then
      [ChildOp.setpgid getpid (if l.pgid = 0 then getpid else l.pgid)]
        ++ (if l.foreground ≠ 0 then
              [ChildOp.tcsetpgrp (if l.pgid = 0 then getpid else l.pgid)] else [])
        ++ [ChildOp.signal_default "SIGINT", ChildOp.signal_default "SIGQUIT",
            ChildOp.signal_default "SIGTSTP", ChildOp.signal_default "SIGTTIN",
            ChildOp.signal_default "SIGTTOU", ChildOp.signal_default "SIGCHLD"]
    else [])
    ++ (if l.infile ≠ STDIN_FILENO then
          [ChildOp.dup2 l.infile STDIN_FILENO, ChildOp.close l.infile] else [])
    ++ (if l.outfile ≠ STDOUT_FILENO then
          [ChildOp.dup2 l.outfile STDOUT_FILENO, ChildOp.close l.outfile] else [])
    ++ (if l.errfile ≠ STDERR_FILENO then
          [ChildOp.dup2 l.errfile STDERR_FILENO, ChildOp.close l.errfile] else [])
    ++ [ChildOp.execvp l.argv.head? l.argv]
    ++ (if execvp_returns = true then [ChildOp.perror "execvp", ChildOp.exit 1] else [])

/-! ## The read loop (shell.c 68-82, 611-660) -/

/-- `init_process` (shell.c 68-73).  `raw` is the content of the block
returned by `malloc`; only `next` and `argv` are assigned. -/
def init_process (raw : process) (commande : List (List Char)) : List process :=
  [{ raw with argv := commande }]

/-- `init_job` (shell.c 76-82).  `raw` and `rawp` are the contents of the
blocks returned by `malloc`; only `next`, `command` and `first_process` are
assigned. -/
def init_job (raw : job) (rawp : process) (imput : List Char) (commande : List (List Char)) :
    job :=
  { raw with command := imput, first_process := init_process rawp commande }

/-- What the read loop knows after its parsing steps (shell.c 614-619). -/
structure Parsed where
  foreground : Int
  commande : List Char
  argv2 : List (List Char)
  argv_job : List (List Char)
deriving DecidableEq, Repr

/-- The parsing steps of one turn of the read loop (shell.c 614-619) on the
line read by `fgets`: background detection, copy of the line, and the two
splits.  `commande` is the C string left in the first buffer. -/
def main_parse (line : List Char) : Option Parsed :=
  match is_foreground line with
  | none => none
  | some (foreground, commande) =>
    match parse_cmd commande, parse_cmd_chevron (c_str commande) with
    | some argv2, some argv_job =>
      some { foreground := foreground
             commande := after_strtok [Char.ofNat 10, ' '] commande
             argv2 := argv2
             argv_job := argv_job }
    | _, _ => none

/-- The job built by the last branch of the read loop (shell.c 647-649):
`init_job` then `entree_sortie`. -/
def main_job (os : Nat → Int) (raw : job) (rawp : process) (pr : Parsed) :
    Option (job × List Syscall) :=
  entree_sortie os (init_job raw rawp pr.commande pr.argv_job) pr.argv2 pr.argv_job

/-- What one line makes the read loop do. -/
inductive Command where
  | quit
  | cd (rep : Option (List Char))
  | cp_R (src dst : Option (List Char))
  | cp (src dst : Option (List Char))
  | help
  | launch (j : job) (foreground : Int) (calls : List Syscall)
deriving DecidableEq, Repr

/-- One turn of the read loop up to the call of `launch_job` (shell.c
611-654).  With no token at all `argv2[0]` is `NULL` and `strcmp` is
undefined, as is `strcmp (argv2[1], "-R")` for a lone `cp` (`none`).  An
argument of a built-in read at or behind the terminating `NULL` is `none`. -/
def main_step (os : Nat → Int) (raw : job) (rawp : process) (line : List Char) :
    Option Command :=
  match main_parse line with
  | none => none
  | some pr =>
    match pr.argv2 with
    | [] => none
    | a :: rest =>
      if a = "quit".toList then some Command.quit
      else if a = "cd".toList then some (Command.cd rest[0]?)
      else if a = "cp".toList then
        match rest with
        | [] => none
        | b :: rest2 =>
          if b = "-R".toList then some (Command.cp_R rest2[0]? rest2[1]?)
          else some (Command.cp (some b) rest2[0]?)
      else if a = "help".toList then some Command.help
      else
        match main_job os raw rawp pr with
        | none => none
        | some (j, calls) => some (Command.launch j pr.foreground calls)

/-! ## Sample inputs -/

/-- The content of a block just returned by `malloc`, for a process. -/
def raw_process : process where
  argv := []
  pid := 0
  completed := 0
  stopped := 0
  status := 0

/-- The content of a block just returned by `malloc`, for a job. -/
def raw_job : job where
  command := []
  first_process := []
  pgid := 0
  notified := 0
  tmodes := 0
  stdin := 0
  stdout := 0
  stderr := 0

/-- An operating system that hands out the descriptors 3, 4, 5, ... -/
def os_from_3 (k : Nat) : Int :=
  3 + k

/-- An interactive shell of process group 100 on a system where the pipe
number `k` is `(10 + 2k, 11 + 2k)` and the child number `k` gets pid
`200 + k`. -/
def sample_sys : Sys where
  shell_is_interactive := 1
  shell_pgid := 100
  shell_tmodes := 0
  pipe := fun k => some (10 + 2 * (k : Int), 11 + 2 * (k : Int))
  fork := fun k => 200 + (k : Int)
  tcgetattr := 0
  kill := 0

/-- The sample system as seen from the first forked child: `fork` returns 0. -/
def child_sys : Sys where
  shell_is_interactive := 1
  shell_pgid := 100
  shell_tmodes := 0
  pipe := fun k => some (10 + 2 * (k : Int), 11 + 2 * (k : Int))
  fork := fun _ => 0
  tcgetattr := 0
  kill := 0

/-- The sample system as seen from the second forked child: the first `fork`
returns pid 200 and the second one returns 0. -/
def child1_sys : Sys where
  shell_is_interactive := 1
  shell_pgid := 100
  shell_tmodes := 0
  pipe := fun k => some (10 + 2 * (k : Int), 11 + 2 * (k : Int))
  fork := fun k => if k = 1 then 0 else 200 + (k : Int)
  tcgetattr := 0
  kill := 0

/-- A job list of one job with the three stages `ls`, `sort`, `wc`, not yet
started. -/
def pipeline_shell : Shell where
  first_job := [{ command := "ls".toList,
                  first_process := [
                    { argv := ["ls".toList], pid := 0, completed := 0, stopped := 0, status := 0 },
                    { argv := ["sort".toList], pid := 0, completed := 0, stopped := 0, status := 0 },
                    { argv := ["wc".toList], pid := 0, completed := 0, stopped := 0, status := 0 }],
                  pgid := 0, notified := 0, tmodes := 0, stdin := 0, stdout := 1, stderr := 2 }]
  err := []
  out := []
  term := []

end ShellProjet

namespace ShellProjet

/-! ## Lemmas on the job predicates -/

theorem job_is_completed_loop_ne_zero (ps : List process) :
    job_is_completed_loop ps ≠ 0 ↔ ∀ p ∈ ps, p.completed ≠ 0 := by
  induction ps with
  | nil => simp [job_is_completed_loop]
  | cons p ps ih =>
    by_cases hp : p.completed = 0
    · simp [job_is_completed_loop, hp]
    · simp [job_is_completed_loop, hp, ih]

theorem job_is_stopped_loop_ne_zero (ps : List process) :
    job_is_stopped_loop ps ≠ 0 ↔ ∀ p ∈ ps, p.completed ≠ 0 ∨ p.stopped ≠ 0 := by
  induction ps with
  | nil => simp [job_is_stopped_loop]
  | cons p ps ih =>
    by_cases hp : p.completed = 0 ∧ p.stopped = 0
    · simp [job_is_stopped_loop, hp]
    · have hp' : p.completed ≠ 0 ∨ p.stopped ≠ 0 := by
        by_contra hc
        push_neg at hc
        exact hp hc
      simp [job_is_stopped_loop, hp, ih, hp']

/-! ## Lemmas on the search of `mark_process_status` -/

theorem mark_procs_none_iff (h : Host) (pid status : Int) (ps : List process) :
    mark_process_status_procs h pid status ps = none ↔ ∀ q ∈ ps, q.pid ≠ pid := by
  induction ps with
  | nil => simp [mark_process_status_procs]
  | cons p ps ih =>
    by_cases hp : p.pid = pid
    · simp [mark_process_status_procs, hp]
    · simp [mark_process_status_procs, hp, ih]

theorem mark_procs_split (h : Host) (pid status : Int) (ps ps' : List process)
    (hm : mark_process_status_procs h pid status ps = some ps') :
    ∃ pre p post, ps = pre ++ p :: post ∧ (∀ q ∈ pre, q.pid ≠ pid) ∧ p.pid = pid ∧
      ps' = pre ++ mark_record h status p :: post := by
  induction ps generalizing ps' with
  | nil => simp [mark_process_status_procs] at hm
  | cons p ps ih =>
    by_cases hp : p.pid = pid
    · simp [mark_process_status_procs, hp] at hm
      exact ⟨[], p, ps, by simp, by simp, hp, by simp [hm]⟩
    · simp [mark_process_status_procs, hp] at hm
      obtain ⟨ps1, h1, h2⟩ := hm
      obtain ⟨pre, q, post, e1, e2, e3, e4⟩ := ih ps1 h1
      refine ⟨p :: pre, q, post, by simp [e1], ?_, e3, by simp [← h2, e4]⟩
      intro x hx
      rcases List.mem_cons.mp hx with hx | hx
      · rw [hx]; exact hp
      · exact e2 x hx

theorem mark_jobs_none_iff (h : Host) (pid status : Int) (js : List job) :
    mark_process_status_jobs h pid status js = none ↔ ¬ tracks js pid := by
  induction js with
  | nil => simp [mark_process_status_jobs, tracks]
  | cons j js ih =>
    cases hj : mark_process_status_procs h pid status j.first_process with
    | none =>
      have hn := (mark_procs_none_iff h pid status j.first_process).mp hj
      simp only [mark_process_status_jobs, hj, Option.map_eq_none', ih]
      constructor
      · rintro hnt ⟨j', hj', p, hp, hpid⟩
        rcases List.mem_cons.mp hj' with e | e
        · subst e; exact hn p hp hpid
        · exact hnt ⟨j', e, p, hp, hpid⟩
      · rintro hnt ⟨j', hj', p, hp, hpid⟩
        exact hnt ⟨j', List.mem_cons_of_mem _ hj', p, hp, hpid⟩
    | some ps' =>
      simp only [mark_process_status_jobs, hj]
      constructor
      · intro hc; cases hc
      · intro hnt
        exfalso
        apply hnt
        obtain ⟨pre, p, post, e1, _, e3, _⟩ := mark_procs_split h pid status _ _ hj
        exact ⟨j, List.mem_cons_self _ _, p, by simp [e1], e3⟩

theorem mark_jobs_split (h : Host) (pid status : Int) (js js' : List job)
    (hm : mark_process_status_jobs h pid status js = some js') :
    ∃ jpre j jpost pre p post, js = jpre ++ j :: jpost ∧
      (∀ j' ∈ jpre, ∀ q ∈ j'.first_process, q.pid ≠ pid) ∧
      j.first_process = pre ++ p :: post ∧ (∀ q ∈ pre, q.pid ≠ pid) ∧ p.pid = pid ∧
      js' = jpre ++ { j with first_process := pre ++ mark_record h status p :: post } :: jpost := by
  induction js generalizing js' with
  | nil => simp [mark_process_status_jobs] at hm
  | cons j js ih =>
    cases hj : mark_process_status_procs h pid status j.first_process with
    | none =>
      have hn := (mark_procs_none_iff h pid status j.first_process).mp hj
      simp only [mark_process_status_jobs, hj, Option.map_eq_some'] at hm
      obtain ⟨js1, h1, h2⟩ := hm
      obtain ⟨jpre, j0, jpost, pre, p, post, e1, e2, e3, e4, e5, e6⟩ := ih js1 h1
      refine ⟨j :: jpre, j0, jpost, pre, p, post, by simp [e1], ?_, e3, e4, e5, by simp [← h2, e6]⟩
      intro j' hj' q hq
      rcases List.mem_cons.mp hj' with e | e
      · subst e; exact hn q hq
      · exact e2 j' e q hq
    | some ps' =>
      simp only [mark_process_status_jobs, hj, Option.some.injEq] at hm
      obtain ⟨pre, p, post, e1, e2, e3, e4⟩ := mark_procs_split h pid status _ _ hj
      exact ⟨[], j, js, pre, p, post, by simp, by simp, e1, e2, e3, by simp [← hm, e4]⟩

theorem tracks_mark_jobs (h : Host) (pid status x : Int) (js js' : List job)
    (hm : mark_process_status_jobs h pid status js = some js') :
    tracks js' x ↔ tracks js x := by
  obtain ⟨jpre, j, jpost, pre, p, post, e1, _, e3, _, _, e6⟩ := mark_jobs_split h pid status js js' hm
  have hrec : (mark_record h status p).pid = p.pid := by
    unfold mark_record; split <;> rfl
  subst e1 e6
  constructor
  · rintro ⟨j', hj', q, hq, hx⟩
    simp only [List.mem_append, List.mem_cons] at hj'
    rcases hj' with hj' | hj' | hj'
    · exact ⟨j', by simp [hj'], q, hq, hx⟩
    · subst hj'
      simp only [List.mem_append, List.mem_cons] at hq
      rcases hq with hq | hq | hq
      · exact ⟨j, by simp, q, by simp [e3, hq], hx⟩
      · subst hq
        exact ⟨j, by simp, p, by simp [e3], by rw [← hrec]; exact hx⟩
      · exact ⟨j, by simp, q, by simp [e3, hq], hx⟩
    · exact ⟨j', by simp [hj'], q, hq, hx⟩
  · rintro ⟨j', hj', q, hq, hx⟩
    simp only [List.mem_append, List.mem_cons] at hj'
    rcases hj' with hj' | hj' | hj'
    · exact ⟨j', by simp [hj'], q, hq, hx⟩
    · subst hj'
      rw [e3] at hq
      simp only [List.mem_append, List.mem_cons] at hq
      rcases hq with hq | hq | hq
      · exact ⟨_, List.mem_append_right _ (List.mem_cons_self _ _), q, by simp [hq], hx⟩
      · subst hq
        exact ⟨_, List.mem_append_right _ (List.mem_cons_self _ _), mark_record h status q,
          by simp, by rw [hrec]; exact hx⟩
      · exact ⟨_, List.mem_append_right _ (List.mem_cons_self _ _), q, by simp [hq], hx⟩
    · exact ⟨j', by simp [hj'], q, hq, hx⟩

theorem tracks_mark_process_status (h : Host) (errno : Int) (sh : Shell) (pid status x : Int) :
    tracks (mark_process_status h errno sh pid status).2.first_job x ↔ tracks sh.first_job x := by
  unfold mark_process_status
  split
  · split
    · next js' hm => exact tracks_mark_jobs h pid status x _ _ hm
    · rfl
  · split <;> rfl

theorem mark_process_status_ret (h : Host) (errno : Int) (sh : Shell) (pid status : Int)
    (hret : (mark_process_status h errno sh pid status).1 ≠ 0) :
    pid ≤ 0 ∨ ¬ tracks sh.first_job pid := by
  by_cases hp : 0 < pid
  · right
    cases hm : mark_process_status_jobs h pid status sh.first_job with
    | none => exact (mark_jobs_none_iff h pid status _).mp hm
    | some js' => simp [mark_process_status, hp, hm] at hret
  · left; omega

theorem length_mark_jobs (h : Host) (pid status : Int) (js js' : List job)
    (hm : mark_process_status_jobs h pid status js = some js') : js'.length = js.length := by
  obtain ⟨jpre, j, jpost, pre, p, post, e1, _, _, _, _, e6⟩ := mark_jobs_split h pid status js js' hm
  rw [e1, e6]; simp

theorem length_mark_process_status (h : Host) (errno : Int) (sh : Shell) (pid status : Int) :
    (mark_process_status h errno sh pid status).2.first_job.length = sh.first_job.length := by
  unfold mark_process_status
  split
  · split
    · next js' hm => exact length_mark_jobs h pid status _ _ hm
    · rfl
  · split <;> rfl

theorem mark_process_status_refused (h : Host) (errno : Int) (sh : Shell) (pid status : Int)
    (hr : pid ≤ 0 ∨ ¬ tracks sh.first_job pid) :
    (mark_process_status h errno sh pid status).1 ≠ 0 := by
  unfold mark_process_status
  by_cases hp : 0 < pid
  · rcases hr with hr | hr
    · omega
    · rw [if_pos hp, (mark_jobs_none_iff h pid status _).mpr hr]
      simp
  · rw [if_neg hp]
    split <;> simp

/-- The wait does end: as soon as the results of `waitpid` hold one that
`mark_process_status` refuses, `wait_for_job` returns. -/
theorem wait_for_job_isSome (h : Host) (i : Nat) (rs : List WaitResult) (sh : Shell)
    (hi : i < sh.first_job.length)
    (hex : ∃ r ∈ rs, r.pid ≤ 0 ∨ ¬ tracks sh.first_job r.pid) :
    (wait_for_job h i rs sh).isSome = true := by
  induction rs generalizing sh with
  | nil => simp at hex
  | cons r rs ih =>
    have hlen := length_mark_process_status h r.errno sh r.pid r.status
    have hi' : i < (mark_process_status h r.errno sh r.pid r.status).2.first_job.length := by
      rw [hlen]; exact hi
    simp only [wait_for_job, List.getElem?_eq_getElem hi']
    split
    · next hc =>
      apply ih _ hi'
      obtain ⟨r', hr', href⟩ := hex
      rcases List.mem_cons.mp hr' with e | e
      · subst e
        exact absurd hc.1 (mark_process_status_refused h _ sh _ _ href)
      · refine ⟨r', e, ?_⟩
        rcases href with href | href
        · exact Or.inl href
        · exact Or.inr (fun ht => href ((tracks_mark_process_status h _ sh _ _ _).mp ht))
    · rfl

/-- Claim C1, refuted as stated: with one running job (a single process of
pid 5) and a `waitpid` that reports pid 7, which no job tracks,
`wait_for_job` returns while the job is neither stopped nor completed. -/
theorem wait_for_job_untracked_pid_running :
    ∃ sh' j, wait_for_job linux 0 [⟨7, 0, 0⟩] running_shell = some (sh', []) ∧
      sh'.first_job[0]? = some j ∧ job_is_stopped j = 0 ∧ job_is_completed j = 0 :=
  ⟨{ running_shell with err := [Diag.no_child_process 7] },
    running_shell.first_job.get ⟨0, by decide⟩, by decide, by decide, by decide, by decide⟩

/-- Claim C1, amended: when `wait_for_job` returns for the job at position `i`,
the last result of `waitpid` it consumed either was refused by
`mark_process_status` (a pid that is not positive, or a pid that no job
tracks), or left the job fully stopped or fully completed. -/
theorem wait_for_job_returns (h : Host) (i : Nat) (rs : List WaitResult) (sh sh' : Shell)
    (rest : List WaitResult) (hret : wait_for_job h i rs sh = some (sh', rest)) :
    ∃ pre r, rs = pre ++ r :: rest ∧
      ((r.pid ≤ 0 ∨ ¬ tracks sh.first_job r.pid) ∨
        ∃ j, sh'.first_job[i]? = some j ∧ (job_is_stopped j ≠ 0 ∨ job_is_completed j ≠ 0)) := by
  induction rs generalizing sh with
  | nil => simp [wait_for_job] at hret
  | cons r rs ih =>
    simp only [wait_for_job] at hret
    cases hj : (mark_process_status h r.errno sh r.pid r.status).2.first_job[i]? with
    | none => simp [hj] at hret
    | some j =>
      simp only [hj] at hret
      by_cases hc : (mark_process_status h r.errno sh r.pid r.status).1 = 0 ∧
          job_is_stopped j = 0 ∧ job_is_completed j = 0
      · rw [if_pos hc] at hret
        obtain ⟨pre, r', e1, e2⟩ := ih _ hret
        refine ⟨r :: pre, r', by simp [e1], ?_⟩
        rcases e2 with (e2 | e2) | e2
        · exact Or.inl (Or.inl e2)
        · exact Or.inl (Or.inr (fun ht => e2 ((tracks_mark_process_status h _ sh _ _ _).mpr ht)))
        · exact Or.inr e2
      · rw [if_neg hc] at hret
        simp only [Option.some.injEq, Prod.mk.injEq] at hret
        obtain ⟨e1, e2⟩ := hret
        subst e1 e2
        refine ⟨[], r, by simp, ?_⟩
        by_cases hm : (mark_process_status h r.errno sh r.pid r.status).1 = 0
        · right
          refine ⟨j, hj, ?_⟩
          by_contra hn
          push_neg at hn
          exact hc ⟨hm, hn.1, hn.2⟩
        · left
          exact mark_process_status_ret h _ sh _ _ hm

/-- Witness for C1: the running job of pid 5 is waited for while `waitpid`
first reports its exit; the wait returns with the job completed. -/
theorem wait_for_job_returns_witness :
    ∃ pre r, [(⟨5, 0, 0⟩ : WaitResult), ⟨9, 0, 0⟩] = pre ++ r :: [⟨9, 0, 0⟩] ∧
      ((r.pid ≤ 0 ∨ ¬ tracks running_shell.first_job r.pid) ∨
        ∃ j, (mark_process_status linux 0 running_shell 5 0).2.first_job[0]? = some j ∧
          (job_is_stopped j ≠ 0 ∨ job_is_completed j ≠ 0)) :=
  wait_for_job_returns linux 0 [⟨5, 0, 0⟩, ⟨9, 0, 0⟩] running_shell
    (mark_process_status linux 0 running_shell 5 0).2 [⟨9, 0, 0⟩] (by decide)

/-- Claim C2: for a job with at least one process, `job_is_completed` returns
true exactly when the `completed` flag of every process of the job is true. -/
theorem job_is_completed_iff (j : job) (hN : 1 ≤ j.first_process.length) :
    job_is_completed j ≠ 0 ↔ ∀ p ∈ j.first_process, p.completed ≠ 0 := by
  have _ := hN
  exact job_is_completed_loop_ne_zero j.first_process

/-- Witness for C2 on the job whose single process has completed. -/
theorem job_is_completed_iff_witness :
    1 ≤ done_job.first_process.length ∧
      (job_is_completed done_job ≠ 0 ↔ ∀ p ∈ done_job.first_process, p.completed ≠ 0) :=
  ⟨by decide, job_is_completed_iff done_job (by decide)⟩

/-- Claim C3, refuted as stated: the job whose single process has completed
and never stopped is reported stopped by `job_is_stopped` although none of its
processes is stopped. -/
theorem job_is_stopped_without_stopped_process :
    ¬ (job_is_stopped done_job ≠ 0 ↔
        ((∀ p ∈ done_job.first_process, p.completed ≠ 0 ∨ p.stopped ≠ 0) ∧
          ∃ p ∈ done_job.first_process, p.stopped ≠ 0)) := by
  decide

/-- Claim C3, amended: `job_is_stopped` returns true exactly when every
process of the job is either completed or stopped; no stopped process is
required, so a fully completed job counts as stopped too. -/
theorem job_is_stopped_iff (j : job) :
    job_is_stopped j ≠ 0 ↔ ∀ p ∈ j.first_process, p.completed ≠ 0 ∨ p.stopped ≠ 0 :=
  job_is_stopped_loop_ne_zero j.first_process

theorem all_processes_append (a b : List job) :
    all_processes (a ++ b) = all_processes a ++ all_processes b := by
  simp [all_processes]

theorem all_processes_cons (j : job) (js : List job) :
    all_processes (j :: js) = j.first_process ++ all_processes js := by
  simp [all_processes]

theorem mem_all_processes (js : List job) (p : process) :
    p ∈ all_processes js ↔ ∃ j ∈ js, p ∈ j.first_process := by
  simp [all_processes]

theorem flags_consistent_mark_record (h : Host) (status : Int) (p : process) :
    flags_consistent (mark_record h status p) ↔
      (if h.WIFSTOPPED status then p.completed = 0 else p.stopped = 0) := by
  unfold flags_consistent at *
  unfold mark_record
  cases hs : h.WIFSTOPPED status with
  | true =>
    simp only [if_true]
    constructor
    · intro hc
      by_contra hn
      exact hc ⟨hn, by decide⟩
    · intro hc hn
      exact hn.1 hc
  | false =>
    simp only [Bool.false_eq_true, if_false]
    constructor
    · intro hc
      by_contra hn
      exact hc ⟨by decide, hn⟩
    · intro hc hn
      exact hn.2 hc

/-- Claim C4, refuted as stated: in the job list whose single process (pid 5)
is stopped and not completed the predicate holds, and after
`mark_process_status (5, 0)` (a normal exit) that process has both flags
true. -/
theorem mark_process_status_breaks_flags :
    (∀ p ∈ all_processes stopped_shell.first_job, flags_consistent p) ∧
      ¬ (∀ p ∈ all_processes (mark_process_status linux 0 stopped_shell 5 0).2.first_job,
          flags_consistent p) := by
  decide

/-- From a job list in which no process has both flags true, the predicate
holds again after `mark_process_status` exactly when the record the call
updates did not have the other flag set. -/
theorem flags_consistent_after_mark (h : Host) (errno : Int) (sh : Shell) (pid status : Int)
    (hinv : ∀ p ∈ all_processes sh.first_job, flags_consistent p) :
    (∀ p ∈ all_processes (mark_process_status h errno sh pid status).2.first_job,
        flags_consistent p) ↔
      (0 < pid → ∀ p, (all_processes sh.first_job).find? (fun q => decide (q.pid = pid)) = some p →
        if h.WIFSTOPPED status then p.completed = 0 else p.stopped = 0) := by
  by_cases hp : 0 < pid
  · cases hm : mark_process_status_jobs h pid status sh.first_job with
    | none =>
      have hnt := (mark_jobs_none_iff h pid status _).mp hm
      have hfind : (all_processes sh.first_job).find? (fun q => decide (q.pid = pid)) = none := by
        rw [List.find?_eq_none]
        intro q hq
        obtain ⟨j, hj, hqj⟩ := (mem_all_processes _ _).mp hq
        simp only [decide_eq_true_eq]
        intro hx
        exact hnt ⟨j, hj, q, hqj, hx⟩
      simp only [mark_process_status, hp, hm, if_true, hfind]
      constructor
      · intro _ _ p hc; cases hc
      · intro _; exact hinv
    | some js' =>
      obtain ⟨jpre, j, jpost, pre, p, post, e1, e2, e3, e4, e5, e6⟩ :=
        mark_jobs_split h pid status _ _ hm
      have hall : all_processes sh.first_job =
          (all_processes jpre ++ pre) ++ p :: (post ++ all_processes jpost) := by
        rw [e1, all_processes_append, all_processes_cons, e3]; simp
      have hall' : all_processes js' =
          (all_processes jpre ++ pre) ++ mark_record h status p :: (post ++ all_processes jpost) := by
        rw [e6, all_processes_append, all_processes_cons]; simp
      have hpre : ∀ q ∈ all_processes jpre ++ pre, q.pid ≠ pid := by
        intro q hq
        rcases List.mem_append.mp hq with hq | hq
        · obtain ⟨j', hj', hqj⟩ := (mem_all_processes _ _).mp hq
          exact e2 j' hj' q hqj
        · exact e4 q hq
      have hfind : (all_processes sh.first_job).find? (fun q => decide (q.pid = pid)) = some p := by
        rw [hall, List.find?_append]
        have : (all_processes jpre ++ pre).find? (fun q => decide (q.pid = pid)) = none := by
          rw [List.find?_eq_none]
          intro q hq
          simpa using hpre q hq
        rw [this]
        simp [List.find?_cons, e5]
      have hpc : flags_consistent p := hinv p (by rw [hall]; simp)
      simp only [mark_process_status, hp, hm, if_true, hfind, Option.some.injEq]
      rw [hall']
      constructor
      · intro hc _ q hq
        subst hq
        exact (flags_consistent_mark_record h status p).mp (hc _ (by simp))
      · intro hc q hq
        have hrec := (flags_consistent_mark_record h status p).mpr (hc trivial p rfl)
        simp only [List.mem_append, List.mem_cons] at hq
        rcases hq with (hq | hq) | hq | hq | hq
        · exact hinv q (by rw [hall]; simp [hq])
        · exact hinv q (by rw [hall]; simp [hq])
        · rw [hq]; exact hrec
        · exact hinv q (by rw [hall]; simp [hq])
        · exact hinv q (by rw [hall]; simp [hq])
  · have hst : (mark_process_status h errno sh pid status).2.first_job = sh.first_job := by
      unfold mark_process_status
      rw [if_neg hp]
      split <;> rfl
    rw [hst]
    constructor
    · intro _ hc; exact absurd hc hp
    · intro _; exact hinv

/-- The job list after `mark_process_status` is the one before, or the one
before with the first record of that pid replaced by its update. -/
theorem records_after_mark (h : Host) (errno : Int) (sh : Shell) (pid status : Int) :
    (mark_process_status h errno sh pid status).2.first_job = sh.first_job ∨
    ∃ jpre j jpost pre p post, sh.first_job = jpre ++ j :: jpost ∧
      (∀ j' ∈ jpre, ∀ q ∈ j'.first_process, q.pid ≠ pid) ∧
      j.first_process = pre ++ p :: post ∧ (∀ q ∈ pre, q.pid ≠ pid) ∧ p.pid = pid ∧
      (mark_process_status h errno sh pid status).2.first_job =
        jpre ++ { j with first_process := pre ++
          (if h.WIFSTOPPED status = true then { p with status := status, stopped := 1 }
           else { p with status := status, completed := 1 }) :: post } :: jpost := by
  by_cases hp : 0 < pid
  · cases hm : mark_process_status_jobs h pid status sh.first_job with
    | none =>
      left
      simp [mark_process_status, hp, hm]
    | some js' =>
      right
      obtain ⟨jpre, j, jpost, pre, p, post, e1, e2, e3, e4, e5, e6⟩ :=
        mark_jobs_split h pid status _ _ hm
      refine ⟨jpre, j, jpost, pre, p, post, e1, e2, e3, e4, e5, ?_⟩
      simp only [mark_process_status, hp, hm, if_true]
      rw [e6]
      rfl
  · left
    unfold mark_process_status
    rw [if_neg hp]
    split <;> rfl

/-- Claim C4, amended: `mark_process_status` sets one flag and never clears
the other.  From a job list in which no process has both flags true, the
predicate holds again after `mark_process_status (pid, status)` exactly when
the record the call updates (the first one of that pid, if `pid` is positive
and tracked) did not have the other flag set: not `completed` when the status
is a stop status, not `stopped` otherwise.  The call changes nothing else:
the job list afterwards is the one before, or the one before with that single
record given the status and `stopped := 1` (stop status) or `completed := 1`
(otherwise), its other flag and every other record being kept. -/
theorem mark_process_status_flags (h : Host) (errno : Int) (sh : Shell) (pid status : Int)
    (hinv : ∀ p ∈ all_processes sh.first_job, flags_consistent p) :
    ((∀ p ∈ all_processes (mark_process_status h errno sh pid status).2.first_job,
        flags_consistent p) ↔
      (0 < pid → ∀ p, (all_processes sh.first_job).find? (fun q => decide (q.pid = pid)) = some p →
        if h.WIFSTOPPED status then p.completed = 0 else p.stopped = 0)) ∧
    ((mark_process_status h errno sh pid status).2.first_job = sh.first_job ∨
      ∃ jpre j jpost pre p post, sh.first_job = jpre ++ j :: jpost ∧
        (∀ j' ∈ jpre, ∀ q ∈ j'.first_process, q.pid ≠ pid) ∧
        j.first_process = pre ++ p :: post ∧ (∀ q ∈ pre, q.pid ≠ pid) ∧ p.pid = pid ∧
        (mark_process_status h errno sh pid status).2.first_job =
          jpre ++ { j with first_process := pre ++
            (if h.WIFSTOPPED status = true then { p with status := status, stopped := 1 }
             else { p with status := status, completed := 1 }) :: post } :: jpost) :=
  ⟨flags_consistent_after_mark h errno sh pid status hinv,
    records_after_mark h errno sh pid status⟩

/-- Witness for C4: the running process of pid 5 receives a stop status; it
was not completed, the flags stay consistent, and its record is the only one
that changes. -/
theorem mark_process_status_flags_witness :
    ((∀ p ∈ all_processes (mark_process_status linux 0 running_shell 5 127).2.first_job,
        flags_consistent p) ↔
      ((0 : Int) < 5 → ∀ p, (all_processes running_shell.first_job).find?
          (fun q => decide (q.pid = 5)) = some p →
        if linux.WIFSTOPPED 127 then p.completed = 0 else p.stopped = 0)) ∧
    ((mark_process_status linux 0 running_shell 5 127).2.first_job = running_shell.first_job ∨
      ∃ jpre j jpost pre p post, running_shell.first_job = jpre ++ j :: jpost ∧
        (∀ j' ∈ jpre, ∀ q ∈ j'.first_process, q.pid ≠ 5) ∧
        j.first_process = pre ++ p :: post ∧ (∀ q ∈ pre, q.pid ≠ 5) ∧ p.pid = 5 ∧
        (mark_process_status linux 0 running_shell 5 127).2.first_job =
          jpre ++ { j with first_process := pre ++
            (if linux.WIFSTOPPED 127 = true then { p with status := 127, stopped := 1 }
             else { p with status := 127, completed := 1 }) :: post } :: jpost) :=
  mark_process_status_flags linux 0 running_shell 5 127 (by decide)

/-- Claim C5: for a positive pid that some job tracks, `mark_process_status`
returns 0 and the job list afterwards is the one before with a single record
replaced: the first record of that pid (no earlier job holds that pid, and no
earlier record of its own job does), which receives the status and has
`stopped` set when the status is a stop status and `completed` set otherwise.
Every other record and every other field of every job is unchanged. -/
theorem mark_process_status_tracked (h : Host) (errno : Int) (sh : Shell) (pid status : Int)
    (hpid : 0 < pid) (htr : tracks sh.first_job pid) :
    ∃ (i k : Nat) (j : job) (p : process),
      sh.first_job[i]? = some j ∧ j.first_process[k]? = some p ∧ p.pid = pid ∧
      (∀ i' j', i' < i → sh.first_job[i']? = some j' → ∀ q ∈ j'.first_process, q.pid ≠ pid) ∧
      (∀ k' q, k' < k → j.first_process[k']? = some q → q.pid ≠ pid) ∧
      (mark_process_status h errno sh pid status).1 = 0 ∧
      (mark_process_status h errno sh pid status).2.first_job =
        sh.first_job.set i { j with first_process := (j.first_process.set k
          (if h.WIFSTOPPED status then { p with status := status, stopped := 1 }
           else { p with status := status, completed := 1 })) } := by
  cases hm : mark_process_status_jobs h pid status sh.first_job with
  | none => exact absurd htr ((mark_jobs_none_iff h pid status _).mp hm)
  | some js' =>
    obtain ⟨jpre, j, jpost, pre, p, post, e1, e2, e3, e4, e5, e6⟩ :=
      mark_jobs_split h pid status _ _ hm
    refine ⟨jpre.length, pre.length, j, p, ?_, ?_, e5, ?_, ?_, ?_, ?_⟩
    · rw [e1, List.getElem?_append_right (le_refl _)]; simp
    · rw [e3, List.getElem?_append_right (le_refl _)]; simp
    · intro i' j' hi hj'
      rw [e1, List.getElem?_append_left hi] at hj'
      exact e2 j' (List.getElem?_mem hj')
    · intro k' q hk hq
      rw [e3, List.getElem?_append_left hk] at hq
      exact e4 q (List.getElem?_mem hq)
    · simp [mark_process_status, hpid, hm]
    · simp only [mark_process_status, hpid, hm, if_true]
      rw [e6, e1, e3]
      simp [mark_record]

/-- Witness for C5: the exit of the tracked process of pid 5. -/
theorem mark_process_status_tracked_witness :
    ∃ (i k : Nat) (j : job) (p : process),
      running_shell.first_job[i]? = some j ∧ j.first_process[k]? = some p ∧ p.pid = 5 ∧
      (∀ i' j', i' < i → running_shell.first_job[i']? = some j' →
        ∀ q ∈ j'.first_process, q.pid ≠ 5) ∧
      (∀ k' q, k' < k → j.first_process[k']? = some q → q.pid ≠ 5) ∧
      (mark_process_status linux 0 running_shell 5 0).1 = 0 ∧
      (mark_process_status linux 0 running_shell 5 0).2.first_job =
        running_shell.first_job.set i { j with first_process := (j.first_process.set k
          (if linux.WIFSTOPPED 0 then { p with status := 0, stopped := 1 }
           else { p with status := 0, completed := 1 })) } :=
  mark_process_status_tracked linux 0 running_shell 5 0 (by decide)
    ⟨running_shell.first_job.get ⟨0, by decide⟩, by decide,
      { argv := ["sleep".toList, "5".toList], pid := 5, completed := 0, stopped := 0,
        status := 0 }, by decide, by decide⟩

/-! ## The wiring of `launch_job` -/

theorem launch_job_loop_spec (sys : Sys) (foreground : Int) (j : job) (pipes : Nat → Int × Int)
    (ps : List process) :
    ∀ (st : Spawn),
      (∀ k, k + 1 < ps.length → sys.pipe (st.pipes.length + k) = some (pipes (st.pipes.length + k))) →
      (∀ k, k < ps.length → 0 < sys.fork (st.done.length + k)) →
      ∃ r ls, launch_job_loop sys foreground j ps st = Outcome.ok r ∧
        r.launched = st.launched ++ ls ∧ ls.length = ps.length ∧
        ls.map Launch.argv = ps.map process.argv ∧
        (ps ≠ [] → ls[0]?.map Launch.infile = some st.infile) ∧
        (ps ≠ [] → ls[ps.length - 1]?.map Launch.outfile = some j.stdout) ∧
        (∀ k, k + 1 < ps.length →
          ls[k]?.map Launch.outfile = some (pipes (st.pipes.length + k)).2 ∧
          ls[k + 1]?.map Launch.infile = some (pipes (st.pipes.length + k)).1) ∧
        r.pipes = st.pipes ++ (List.range (ps.length - 1)).map
          (fun k => pipes (st.pipes.length + k)) := by
  induction ps with
  | nil =>
    intro st _ _
    exact ⟨st, [], rfl, by simp, rfl, rfl, by simp, by simp, by simp, by simp⟩
  | cons p ps ih =>
    intro st hpipe hfork
    have hf0 : 0 < sys.fork st.done.length := by simpa using hfork 0 (by simp)
    have hne : sys.fork st.done.length ≠ 0 := by omega
    have hnl : ¬ sys.fork st.done.length < 0 := by omega
    cases ps with
    | nil =>
      have hstep : launch_job_loop sys foreground j [p] st =
          Outcome.ok {
            done := st.done ++ [{ p with pid := sys.fork st.done.length }]
            pgid := if sys.shell_is_interactive ≠ 0 ∧ st.pgid = 0 then sys.fork st.done.length
              else st.pgid
            infile := st.mypipe.1
            mypipe := st.mypipe
            launched := st.launched ++ [{
              argv := p.argv, pgid := st.pgid, infile := st.infile,
              outfile := j.stdout, errfile := j.stderr, foreground := foreground }]
            pipes := st.pipes
            closed := st.closed ++ (if st.infile ≠ j.stdin then [st.infile] else [])
              ++ (if j.stdout ≠ j.stdout then [j.stdout] else []) } := by
        rw [launch_job_loop]
        simp only [if_true, if_neg hne, if_neg hnl]
        rw [launch_job_loop]
      refine ⟨_, [{
              argv := p.argv, pgid := st.pgid, infile := st.infile,
              outfile := j.stdout, errfile := j.stderr, foreground := foreground }],
          hstep, rfl, rfl, rfl, ?_, ?_, ?_, ?_⟩
      · intro _; simp
      · intro _; simp
      · intro k hk; simp at hk
      · simp
    | cons q qs =>
      have hp0 : sys.pipe st.pipes.length = some (pipes st.pipes.length) := by
        simpa using hpipe 0 (by simp)
      have hstep : ∃ st1 : Spawn, launch_job_loop sys foreground j (p :: q :: qs) st =
          launch_job_loop sys foreground j (q :: qs) st1 ∧
          st1.done.length = st.done.length + 1 ∧
          st1.pipes = st.pipes ++ [pipes st.pipes.length] ∧
          st1.infile = (pipes st.pipes.length).1 ∧
          st1.launched = st.launched ++ [{
              argv := p.argv, pgid := st.pgid, infile := st.infile,
              outfile := (pipes st.pipes.length).2, errfile := j.stderr,
              foreground := foreground }] := by
        refine ⟨{
            done := st.done ++ [{ p with pid := sys.fork st.done.length }]
            pgid := if sys.shell_is_interactive ≠ 0 ∧ st.pgid = 0 then sys.fork st.done.length
              else st.pgid
            infile := (pipes st.pipes.length).1
            mypipe := pipes st.pipes.length
            launched := st.launched ++ [{
              argv := p.argv, pgid := st.pgid, infile := st.infile,
              outfile := (pipes st.pipes.length).2, errfile := j.stderr,
              foreground := foreground }]
            pipes := st.pipes ++ [pipes st.pipes.length]
            closed := st.closed ++ (if st.infile ≠ j.stdin then [st.infile] else [])
              ++ (if (pipes st.pipes.length).2 ≠ j.stdout then [(pipes st.pipes.length).2]
                  else []) }, ?_, ?_, ?_, ?_, ?_⟩
        · rw [launch_job_loop]
          simp only [hp0, if_neg hne, if_neg hnl]
          simp only [reduceCtorEq, if_false]
        · simp
        · rfl
        · rfl
        · rfl
      obtain ⟨st1, hrun, hd, hpz, hin, hla⟩ := hstep
      have hpl : st1.pipes.length = st.pipes.length + 1 := by rw [hpz]; simp
      obtain ⟨r, ls, e1, e2, e3, e4, e5, e6, e7, e8⟩ := ih st1
        (by
          intro k hk
          have := hpipe (k + 1) (by simp at hk ⊢; omega)
          rw [hpl]
          simpa [Nat.add_assoc, Nat.add_comm 1 k] using this)
        (by
          intro k hk
          have := hfork (k + 1) (by simp at hk ⊢; omega)
          rw [hd]
          simpa [Nat.add_assoc, Nat.add_comm 1 k] using this)
      refine ⟨r, ({
              argv := p.argv, pgid := st.pgid, infile := st.infile,
              outfile := (pipes st.pipes.length).2, errfile := j.stderr,
              foreground := foreground } : Launch) :: ls, hrun.trans e1, ?_, ?_, ?_, ?_, ?_, ?_, ?_⟩
      · rw [e2, hla]; simp
      · simp [e3]
      · simp [e4]
      · intro _; simp
      · intro _
        have := e6 (by simp)
        simpa using this
      · intro k hk
        cases k with
        | zero =>
          refine ⟨by simp, ?_⟩
          have := e5 (by simp)
          rw [hin] at this
          simpa using this
        | succ k =>
          have := e7 k (by simp at hk ⊢; omega)
          rw [hpl] at this
          simpa [Nat.add_assoc, Nat.add_comm 1 k] using this
      · rw [e8, hpz]
        simp only [List.length_cons, Nat.add_sub_cancel, List.length_append, List.length_singleton]
        rw [List.range_succ_eq_map]
        simp [Nat.add_assoc, Nat.add_comm 1, Function.comp_def]

theorem launch_job_of_loop (h : Host) (sys : Sys) (waits : List WaitResult) (mypipe : Int × Int)
    (sh : Shell) (i : Fin sh.first_job.length) (foreground : Int) (st : Spawn)
    (hloop : launch_job_loop sys foreground (sh.first_job.get i)
      (sh.first_job.get i).first_process
      { done := [], pgid := (sh.first_job.get i).pgid, infile := (sh.first_job.get i).stdin,
        mypipe := mypipe, launched := [], pipes := [], closed := [] } = Outcome.ok st) :
    ∃ r, launch_job h sys waits mypipe sh i foreground = Outcome.ok r ∧
      r.launched = st.launched ∧ r.pipes = st.pipes ∧ r.closed = st.closed := by
  unfold launch_job
  simp only [hloop]
  exact ⟨_, rfl, rfl, rfl, rfl⟩

/-- The shell's own view of `launch_job`: when every `fork` returns a child
pid, one child per stage was started in order with the descriptors of the
pipeline, and exactly the first `N - 1` pipes were created. -/
theorem launch_job_parent (h : Host) (sys : Sys) (waits : List WaitResult) (mypipe : Int × Int)
    (sh : Shell) (i : Fin sh.first_job.length) (foreground : Int) (pipes : Nat → Int × Int)
    (hN : 1 ≤ (sh.first_job.get i).first_process.length)
    (hpipe : ∀ k, k + 1 < (sh.first_job.get i).first_process.length →
      sys.pipe k = some (pipes k))
    (hfork : ∀ k, k < (sh.first_job.get i).first_process.length → 0 < sys.fork k) :
    ∃ r, launch_job h sys waits mypipe sh i foreground = Outcome.ok r ∧
      r.launched.length = (sh.first_job.get i).first_process.length ∧
      r.launched.map Launch.argv = (sh.first_job.get i).first_process.map process.argv ∧
      r.launched[0]?.map Launch.infile = some (sh.first_job.get i).stdin ∧
      r.launched[(sh.first_job.get i).first_process.length - 1]?.map Launch.outfile =
        some (sh.first_job.get i).stdout ∧
      (∀ k, k + 1 < (sh.first_job.get i).first_process.length →
        r.launched[k]?.map Launch.outfile = some (pipes k).2 ∧
        r.launched[k + 1]?.map Launch.infile = some (pipes k).1) ∧
      r.pipes = (List.range ((sh.first_job.get i).first_process.length - 1)).map pipes := by
  have hne : (sh.first_job.get i).first_process ≠ [] := by
    intro hc; rw [hc] at hN; simp at hN
  obtain ⟨st, ls, e1, e2, e3, e4, e5, e6, e7, e8⟩ :=
    launch_job_loop_spec sys foreground (sh.first_job.get i) pipes
      (sh.first_job.get i).first_process
      { done := [], pgid := (sh.first_job.get i).pgid, infile := (sh.first_job.get i).stdin,
        mypipe := mypipe, launched := [], pipes := [], closed := [] }
      (by intro k hk; simpa using hpipe k hk)
      (by intro k hk; simpa using hfork k hk)
  simp only [List.nil_append, List.length_nil, Nat.zero_add] at e2 e7 e8
  obtain ⟨r, hr, hl, hp, _⟩ := launch_job_of_loop h sys waits mypipe sh i foreground st e1
  refine ⟨r, hr, ?_, ?_, ?_, ?_, ?_, ?_⟩
  · rw [hl, e2, e3]
  · rw [hl, e2, e4]
  · rw [hl, e2]; exact e5 hne
  · rw [hl, e2]; exact e6 hne
  · intro k hk
    rw [hl, e2]
    exact e7 k hk
  · rw [hp, e8]

theorem launch_job_loop_step (sys : Sys) (foreground : Int) (j : job) (pipes : Nat → Int × Int)
    (p q : process) (qs : List process) (st : Spawn)
    (hp0 : sys.pipe st.pipes.length = some (pipes st.pipes.length))
    (hf0 : 0 < sys.fork st.done.length) :
    ∃ st1 : Spawn, launch_job_loop sys foreground j (p :: q :: qs) st =
        launch_job_loop sys foreground j (q :: qs) st1 ∧
      st1.done.length = st.done.length + 1 ∧
      st1.pipes.length = st.pipes.length + 1 ∧
      st1.infile = (pipes st.pipes.length).1 := by
  have hne : sys.fork st.done.length ≠ 0 := by omega
  have hnl : ¬ sys.fork st.done.length < 0 := by omega
  refine ⟨{
      done := st.done ++ [{ p with pid := sys.fork st.done.length }]
      pgid := if sys.shell_is_interactive ≠ 0 ∧ st.pgid = 0 then sys.fork st.done.length
        else st.pgid
      infile := (pipes st.pipes.length).1
      mypipe := pipes st.pipes.length
      launched := st.launched ++ [{
        argv := p.argv, pgid := st.pgid, infile := st.infile,
        outfile := (pipes st.pipes.length).2, errfile := j.stderr,
        foreground := foreground }]
      pipes := st.pipes ++ [pipes st.pipes.length]
      closed := st.closed ++ (if st.infile ≠ j.stdin then [st.infile] else [])
        ++ (if (pipes st.pipes.length).2 ≠ j.stdout then [(pipes st.pipes.length).2]
            else []) }, ?_, ?_, ?_, ?_⟩
  · rw [launch_job_loop]
    simp only [hp0, if_neg hne, if_neg hnl]
    simp only [reduceCtorEq, if_false]
  · simp
  · simp
  · rfl

/-- The view of the child forked for stage `k` (every earlier `fork` returned
a child pid, this one returns 0): the loop ends in the call of
`launch_process` for that stage, with the descriptors of its place in the
pipeline. -/
theorem launch_job_loop_child (sys : Sys) (foreground : Int) (j : job) (pipes : Nat → Int × Int)
    (ps : List process) :
    ∀ (st : Spawn) (k : Nat), k < ps.length →
      (∀ m, m + 1 < ps.length →
        sys.pipe (st.pipes.length + m) = some (pipes (st.pipes.length + m))) →
      (∀ m, m < k → 0 < sys.fork (st.done.length + m)) →
      sys.fork (st.done.length + k) = 0 →
      ∃ l, launch_job_loop sys foreground j ps st = Outcome.child l ∧
        ps[k]?.map process.argv = some l.argv ∧
        (k = 0 → l.infile = st.infile) ∧
        (∀ k', k = k' + 1 → l.infile = (pipes (st.pipes.length + k')).1) ∧
        (k + 1 = ps.length → l.outfile = j.stdout) ∧
        (k + 1 < ps.length → l.outfile = (pipes (st.pipes.length + k)).2) ∧
        l.errfile = j.stderr ∧ l.foreground = foreground := by
  induction ps with
  | nil => intro st k hk; simp at hk
  | cons p ps ih =>
    intro st k hk hpipe hfork hchild
    cases k with
    | zero =>
      simp only [Nat.add_zero] at hchild
      cases ps with
      | nil =>
        refine ⟨{ argv := p.argv, pgid := st.pgid, infile := st.infile, outfile := j.stdout,
                  errfile := j.stderr, foreground := foreground }, ?_, ?_, ?_, ?_, ?_, ?_, rfl, rfl⟩
        · simp only [launch_job_loop, if_true, hchild]
        · simp
        · intro _; rfl
        · intro k' hk'; omega
        · intro _; rfl
        · intro hlt; simp at hlt
      | cons q qs =>
        have hp0 : sys.pipe st.pipes.length = some (pipes st.pipes.length) := by
          simpa using hpipe 0 (by simp)
        refine ⟨{ argv := p.argv, pgid := st.pgid, infile := st.infile,
                  outfile := (pipes st.pipes.length).2,
                  errfile := j.stderr, foreground := foreground }, ?_, ?_, ?_, ?_, ?_, ?_, rfl, rfl⟩
        · rw [launch_job_loop]
          simp only [hp0, hchild]
          simp only [reduceCtorEq, if_false, if_true]
        · simp
        · intro _; rfl
        · intro k' hk'; omega
        · intro he; simp at he
        · intro _; simp
    | succ k =>
      cases ps with
      | nil => simp at hk
      | cons q qs =>
        have hp0 : sys.pipe st.pipes.length = some (pipes st.pipes.length) := by
          simpa using hpipe 0 (by simp)
        have hf0 : 0 < sys.fork st.done.length := by simpa using hfork 0 (by omega)
        obtain ⟨st1, hrun, hd, hpl, hin⟩ :=
          launch_job_loop_step sys foreground j pipes p q qs st hp0 hf0
        obtain ⟨l, e1, e2, e3, e4, e5, e6, e7, e8⟩ := ih st1 k
          (by simp at hk ⊢; omega)
          (by
            intro m hm
            have := hpipe (m + 1) (by simp at hm ⊢; omega)
            rw [hpl]
            simpa [Nat.add_assoc, Nat.add_comm 1 m] using this)
          (by
            intro m hm
            have := hfork (m + 1) (by omega)
            rw [hd]
            simpa [Nat.add_assoc, Nat.add_comm 1 m] using this)
          (by
            rw [hd]
            simpa [Nat.add_assoc, Nat.add_comm 1 k] using hchild)
        refine ⟨l, hrun.trans e1, ?_, ?_, ?_, ?_, ?_, e7, e8⟩
        · simpa using e2
        · intro hc; omega
        · intro k' hk'
          have hkk : k = k' := by omega
          subst hkk
          cases k with
          | zero => rw [e3 rfl, hin]; rfl
          | succ k0 =>
            rw [e4 k0 rfl, hpl]
            simp [Nat.add_assoc, Nat.add_comm 1 k0]
        · intro he
          exact e5 (by simp at he ⊢; omega)
        · intro hlt
          rw [e6 (by simp at hlt ⊢; omega), hpl]
          simp [Nat.add_assoc, Nat.add_comm 1 k]

theorem launch_job_of_loop_child (h : Host) (sys : Sys) (waits : List WaitResult)
    (mypipe : Int × Int) (sh : Shell) (i : Fin sh.first_job.length) (foreground : Int)
    (l : Launch)
    (hloop : launch_job_loop sys foreground (sh.first_job.get i)
      (sh.first_job.get i).first_process
      { done := [], pgid := (sh.first_job.get i).pgid, infile := (sh.first_job.get i).stdin,
        mypipe := mypipe, launched := [], pipes := [], closed := [] } = Outcome.child l) :
    launch_job h sys waits mypipe sh i foreground = Outcome.child l := by
  unfold launch_job
  simp only [hloop]

theorem dup2_mem_launch_process (sys : Sys) (getpid : Int) (execvp_returns : Bool)
    (l : Launch) :
    (l.infile ≠ STDIN_FILENO →
      ChildOp.dup2 l.infile STDIN_FILENO ∈ launch_process sys getpid execvp_returns l) ∧
    (l.outfile ≠ STDOUT_FILENO →
      ChildOp.dup2 l.outfile STDOUT_FILENO ∈ launch_process sys getpid execvp_returns l) := by
  constructor
  · intro hne
    unfold launch_process
    simp [hne]
  · intro hne
    unfold launch_process
    simp [hne]

/-- Claim C6: for a job of `N ≥ 1` processes, when the calls of `pipe` return
the pipes `pipes 0, pipes 1, ...`, `launch_job` gives the first stage the
job's `stdin` as input and the last stage the job's `stdout` as output, gives
stage `k` the write end of pipe `k` as output and the next stage the read end
of the same pipe as input, and creates exactly the first `N - 1` pipes.  This
is stated of the child forked for each stage `k` (where `fork` returns 0 after
`k` successful forks), which is the process that calls `launch_process` with
those descriptors and makes them its standard input and output, and of the
shell itself when every `fork` returns a child pid. -/
theorem launch_job_wiring (h : Host) (sys : Sys) (waits : List WaitResult) (mypipe : Int × Int)
    (sh : Shell) (i : Fin sh.first_job.length) (foreground : Int) (pipes : Nat → Int × Int)
    (getpid : Int) (execvp_returns : Bool)
    (hN : 1 ≤ (sh.first_job.get i).first_process.length)
    (hpipe : ∀ k, k + 1 < (sh.first_job.get i).first_process.length →
      sys.pipe k = some (pipes k)) :
    (∀ k, k < (sh.first_job.get i).first_process.length →
      (∀ m, m < k → 0 < sys.fork m) → sys.fork k = 0 →
      ∃ l, launch_job h sys waits mypipe sh i foreground = Outcome.child l ∧
        (sh.first_job.get i).first_process[k]?.map process.argv = some l.argv ∧
        (k = 0 → l.infile = (sh.first_job.get i).stdin) ∧
        (∀ k', k = k' + 1 → l.infile = (pipes k').1) ∧
        (k + 1 = (sh.first_job.get i).first_process.length →
          l.outfile = (sh.first_job.get i).stdout) ∧
        (k + 1 < (sh.first_job.get i).first_process.length → l.outfile = (pipes k).2) ∧
        (l.infile ≠ STDIN_FILENO →
          ChildOp.dup2 l.infile STDIN_FILENO ∈ launch_process sys getpid execvp_returns l) ∧
        (l.outfile ≠ STDOUT_FILENO →
          ChildOp.dup2 l.outfile STDOUT_FILENO ∈
            launch_process sys getpid execvp_returns l)) ∧
    ((∀ k, k < (sh.first_job.get i).first_process.length → 0 < sys.fork k) →
      ∃ r, launch_job h sys waits mypipe sh i foreground = Outcome.ok r ∧
        r.launched.length = (sh.first_job.get i).first_process.length ∧
        r.launched.map Launch.argv = (sh.first_job.get i).first_process.map process.argv ∧
        r.launched[0]?.map Launch.infile = some (sh.first_job.get i).stdin ∧
        r.launched[(sh.first_job.get i).first_process.length - 1]?.map Launch.outfile =
          some (sh.first_job.get i).stdout ∧
        (∀ k, k + 1 < (sh.first_job.get i).first_process.length →
          r.launched[k]?.map Launch.outfile = some (pipes k).2 ∧
          r.launched[k + 1]?.map Launch.infile = some (pipes k).1) ∧
        r.pipes = (List.range ((sh.first_job.get i).first_process.length - 1)).map pipes) := by
  constructor
  · intro k hk hfork hchild
    obtain ⟨l, e1, e2, e3, e4, e5, e6, _, _⟩ :=
      launch_job_loop_child sys foreground (sh.first_job.get i) pipes
        (sh.first_job.get i).first_process
        { done := [], pgid := (sh.first_job.get i).pgid, infile := (sh.first_job.get i).stdin,
          mypipe := mypipe, launched := [], pipes := [], closed := [] } k hk
        (by intro m hm; simpa using hpipe m hm)
        (by intro m hm; simpa using hfork m hm)
        (by simpa using hchild)
    simp only [List.length_nil, Nat.zero_add] at e4 e6
    exact ⟨l, launch_job_of_loop_child h sys waits mypipe sh i foreground l e1, e2, e3, e4, e5,
      e6, (dup2_mem_launch_process sys getpid execvp_returns l).1,
      (dup2_mem_launch_process sys getpid execvp_returns l).2⟩
  · intro hfork
    exact launch_job_parent h sys waits mypipe sh i foreground pipes hN hpipe hfork

/-- Witness for C6: the three stages `ls`, `sort`, `wc` on a system whose pipe
number `k` is `(10 + 2k, 11 + 2k)`, seen from the child forked for `sort`
(stage 1) and seen from the shell. -/
theorem launch_job_wiring_witness :
    (∃ l, launch_job linux child1_sys [] (0, 0) pipeline_shell ⟨0, by decide⟩ 1 =
        Outcome.child l ∧
      some ["sort".toList] = some l.argv ∧
      ((1 : Nat) = 0 → l.infile = 0) ∧
      (∀ k' : Nat, 1 = k' + 1 → l.infile = 10 + 2 * (k' : Int)) ∧
      (1 + 1 = 3 → l.outfile = 1) ∧
      (1 + 1 < 3 → l.outfile = 11 + 2 * ((1 : Nat) : Int)) ∧
      (l.infile ≠ STDIN_FILENO →
        ChildOp.dup2 l.infile STDIN_FILENO ∈ launch_process child1_sys 201 false l) ∧
      (l.outfile ≠ STDOUT_FILENO →
        ChildOp.dup2 l.outfile STDOUT_FILENO ∈ launch_process child1_sys 201 false l)) ∧
    (∃ r, launch_job linux sample_sys [] (0, 0) pipeline_shell ⟨0, by decide⟩ 1 = Outcome.ok r ∧
      r.launched.length = 3 ∧
      r.launched.map Launch.argv = ["ls".toList] :: ["sort".toList] :: ["wc".toList] :: [] ∧
      r.launched[0]?.map Launch.infile = some 0 ∧
      r.launched[2]?.map Launch.outfile = some 1 ∧
      (∀ k : Nat, k + 1 < 3 →
        r.launched[k]?.map Launch.outfile = some (11 + 2 * (k : Int)) ∧
        r.launched[k + 1]?.map Launch.infile = some (10 + 2 * (k : Int))) ∧
      r.pipes = [(10, 11), (12, 13)]) :=
  ⟨(launch_job_wiring linux child1_sys [] (0, 0) pipeline_shell ⟨0, by decide⟩ 1
      (fun k => (10 + 2 * (k : Int), 11 + 2 * (k : Int))) 201 false
      (by decide) (fun _ _ => rfl)).1 1 (by decide)
      (fun m hm => by
        have hm0 : m = 0 := by omega
        subst hm0
        decide)
      (by rfl),
    (launch_job_wiring linux sample_sys [] (0, 0) pipeline_shell ⟨0, by decide⟩ 1
      (fun k => (10 + 2 * (k : Int), 11 + 2 * (k : Int))) 201 false
      (by decide) (fun _ _ => rfl)).2 (fun k _ => by simp [sample_sys]; omega)⟩

/-! ## C strings -/

theorem c_str_cons (b : Char) (bs : List Char) :
    c_str (b :: bs) = if b = NUL then [] else b :: c_str bs := by
  by_cases hb : b = NUL <;> simp [c_str, List.takeWhile_cons, hb]

theorem c_str_no_nul (buf : List Char) : ∀ c ∈ c_str buf, c ≠ NUL := by
  intro c hc
  have := List.mem_takeWhile_imp hc
  simpa using this

theorem c_str_of_no_nul (s : List Char) (hs : ∀ c ∈ s, c ≠ NUL) : c_str s = s := by
  induction s with
  | nil => rfl
  | cons b bs ih =>
    have hb : b ≠ NUL := hs b (by simp)
    rw [c_str_cons, if_neg hb, ih (fun c hc => hs c (by simp [hc]))]

theorem c_str_idem (buf : List Char) : c_str (c_str buf) = c_str buf :=
  c_str_of_no_nul _ (c_str_no_nul buf)

theorem c_str_take (buf : List Char) (k : Nat) :
    c_str ((c_str buf).take k) = (c_str buf).take k :=
  c_str_of_no_nul _ (fun c hc => c_str_no_nul buf c (List.mem_of_mem_take hc))

theorem c_str_set (buf : List Char) (k : Nat) (hk : k < strlen buf) :
    c_str (buf.set k NUL) = (c_str buf).take k := by
  induction buf generalizing k with
  | nil => simp [strlen, c_str] at hk
  | cons b bs ih =>
    by_cases hb : b = NUL
    · simp [strlen, c_str_cons, hb] at hk
    · cases k with
      | zero => simp [c_str_cons]
      | succ k =>
        have hk' : k < strlen bs := by
          simp only [strlen, c_str_cons, if_neg hb, List.length_cons] at hk
          simp only [strlen]
          omega
        simp [c_str_cons, hb, ih k hk']

theorem getElem?_c_str (buf : List Char) (k : Nat) (hk : k < strlen buf) :
    buf[k]? = (c_str buf)[k]? := by
  induction buf generalizing k with
  | nil => simp [strlen, c_str] at hk
  | cons b bs ih =>
    by_cases hb : b = NUL
    · simp [strlen, c_str_cons, hb] at hk
    · cases k with
      | zero => simp [c_str_cons, hb]
      | succ k =>
        have hk' : k < strlen bs := by
          simp only [strlen, c_str_cons, if_neg hb, List.length_cons] at hk
          simp only [strlen]
          omega
        simp [c_str_cons, hb, ih k hk']

theorem parse_with_c_str (delim buf : List Char) :
    parse_with delim (c_str buf) = parse_with delim buf := by
  simp [parse_with, strlen, c_str_idem]

/-- Claim C8: for a raw line of at least two characters, `is_foreground`
returns 0 exactly when the second-to-last character is `&`; in that case the
line left in the buffer is the text that precedes the `&`, so both splits done
afterwards yield the tokens of that text; otherwise it returns 1 and the
buffer is unchanged. -/
theorem is_foreground_spec (commande : List Char) (hlen : 2 ≤ strlen commande) :
    ((∃ buf, is_foreground commande = some (0, buf)) ↔
      (c_str commande)[strlen commande - 2]? = some '&') ∧
    ((c_str commande)[strlen commande - 2]? = some '&' →
      ∃ buf, is_foreground commande = some (0, buf) ∧
        c_str buf = (c_str commande).take (strlen commande - 2) ∧
        parse_cmd buf = parse_cmd ((c_str commande).take (strlen commande - 2)) ∧
        parse_cmd_chevron (c_str buf) =
          parse_cmd_chevron ((c_str commande).take (strlen commande - 2))) ∧
    ((c_str commande)[strlen commande - 2]? ≠ some '&' →
      is_foreground commande = some (1, commande)) := by
  have hk : strlen commande - 2 < strlen commande := by omega
  have hget := getElem?_c_str commande _ hk
  have hnlt : ¬ strlen commande < 2 := by omega
  refine ⟨?_, ?_, ?_⟩
  · constructor
    · rintro ⟨buf, hb⟩
      by_contra hc
      rw [← hget] at hc
      simp [is_foreground, hnlt, hc] at hb
    · intro hc
      rw [← hget] at hc
      exact ⟨commande.set (strlen commande - 2) NUL, by simp [is_foreground, hnlt, hc]⟩
  · intro hc
    have hc' := hc
    rw [← hget] at hc'
    refine ⟨commande.set (strlen commande - 2) NUL, by simp [is_foreground, hnlt, hc'],
      c_str_set commande _ hk, ?_, ?_⟩
    · unfold parse_cmd
      rw [← parse_with_c_str, c_str_set commande _ hk]
    · unfold parse_cmd_chevron
      rw [c_str_set commande _ hk]
  · intro hc
    rw [← hget] at hc
    simp [is_foreground, hnlt, hc]

/-- Witness for C8: the line `sleep 5 &` followed by a newline. -/
theorem is_foreground_spec_witness :
    ((∃ buf, is_foreground "sleep 5 &\n".toList = some (0, buf)) ↔
      (c_str "sleep 5 &\n".toList)[strlen "sleep 5 &\n".toList - 2]? = some '&') ∧
    ((c_str "sleep 5 &\n".toList)[strlen "sleep 5 &\n".toList - 2]? = some '&' →
      ∃ buf, is_foreground "sleep 5 &\n".toList = some (0, buf) ∧
        c_str buf = (c_str "sleep 5 &\n".toList).take (strlen "sleep 5 &\n".toList - 2) ∧
        parse_cmd buf =
          parse_cmd ((c_str "sleep 5 &\n".toList).take (strlen "sleep 5 &\n".toList - 2)) ∧
        parse_cmd_chevron (c_str buf) =
          parse_cmd_chevron
            ((c_str "sleep 5 &\n".toList).take (strlen "sleep 5 &\n".toList - 2))) ∧
    ((c_str "sleep 5 &\n".toList)[strlen "sleep 5 &\n".toList - 2]? ≠ some '&' →
      is_foreground "sleep 5 &\n".toList = some (1, "sleep 5 &\n".toList)) :=
  is_foreground_spec "sleep 5 &\n".toList (by decide)

/-! ## The tokens of a string -/

theorem tokens_from_all_delim (delim : List Char) (w : List Char)
    (hw : ∀ c ∈ w, c ∈ delim) :
    tokens_from delim w [] = [] := by
  induction w with
  | nil => simp [tokens_from]
  | cons x xs ih =>
    have hx : x ∈ delim := hw x (by simp)
    simp [tokens_from, hx, ih (fun c hc => hw c (by simp [hc]))]

theorem main_parse_ls_wc :
    main_parse "ls | wc -l\n".toList = some {
      foreground := 1, commande := "ls".toList,
      argv2 := ["ls".toList, "|".toList, "wc".toList, "-l".toList],
      argv_job := ["ls".toList, "|".toList, "wc".toList, "-l".toList] } := by
  rfl

theorem main_parse_cat :
    main_parse "cat < in.txt > out.txt\n".toList = some {
      foreground := 1, commande := "cat".toList,
      argv2 := ["cat".toList, "<".toList, "in.txt".toList, ">".toList, "out.txt".toList],
      argv_job := ["cat".toList, "in.txt".toList, "out.txt".toList] } := by
  rfl

/-- Claim C7, refuted as stated: the job built for `ls | wc -l` does not have
the two processes `ls` and `wc -l`. -/
theorem ls_wc_not_two_stages :
    ¬ ∃ (j : job) (fg : Int) (calls : List Syscall) (p1 p2 : process),
      main_step os_from_3 raw_job raw_process "ls | wc -l\n".toList =
        some (Command.launch j fg calls) ∧
      j.first_process = [p1, p2] ∧ p1.argv = ["ls".toList] ∧
      p2.argv = ["wc".toList, "-l".toList] := by
  have h1 : main_step os_from_3 raw_job raw_process "ls | wc -l\n".toList =
      some (Command.launch
        { command := "ls".toList,
          first_process := [{ argv := ["ls".toList, "|".toList, "wc".toList, "-l".toList],
                              pid := 0, completed := 0, stopped := 0, status := 0 }],
          pgid := 0, notified := 0, tmodes := 0, stdin := 0, stdout := 1, stderr := 2 }
        1 []) := by rfl
  rintro ⟨j, fg, calls, p1, p2, hm, hps, _, _⟩
  rw [h1] at hm
  simp only [Option.some.injEq, Command.launch.injEq] at hm
  obtain ⟨hj, _, _⟩ := hm
  rw [← hj] at hps
  simp at hps

theorem launch_job_loop_single (sys : Sys) (foreground : Int) (j : job) (p : process)
    (st : Spawn) (hf : 0 < sys.fork st.done.length) :
    ∃ r, launch_job_loop sys foreground j [p] st = Outcome.ok r ∧ r.pipes = st.pipes ∧
      r.launched = st.launched ++ [{
        argv := p.argv, pgid := st.pgid, infile := st.infile, outfile := j.stdout,
        errfile := j.stderr, foreground := foreground }] := by
  have hne : sys.fork st.done.length ≠ 0 := by omega
  have hnl : ¬ sys.fork st.done.length < 0 := by omega
  simp only [launch_job_loop, if_true, if_neg hne, if_neg hnl]
  exact ⟨_, rfl, rfl, rfl⟩

theorem launch_job_loop_single_child (sys : Sys) (foreground : Int) (j : job) (p : process)
    (st : Spawn) (hf : sys.fork st.done.length = 0) :
    launch_job_loop sys foreground j [p] st = Outcome.child {
      argv := p.argv, pgid := st.pgid, infile := st.infile, outfile := j.stdout,
      errfile := j.stderr, foreground := foreground } := by
  simp only [launch_job_loop, if_true, hf]

/-- Claim C7, amended: the job built for `ls | wc -l` has exactly one process,
whose argv is `ls`, `|`, `wc`, `-l`.  The child forked for it (where `fork`
returns 0) enters `launch_process` with that argv, descriptor 0 as input and
descriptor 1 as output, and duplicates no descriptor at all; the shell itself
(where `fork` returns the child's pid) created no pipe and started that one
stage only. -/
theorem ls_wc_single_stage (os : Nat → Int) (raw : job) (rawp : process) (h : Host)
    (sys : Sys) (waits : List WaitResult) (mypipe : Int × Int) (getpid : Int)
    (execvp_returns : Bool) :
    ∃ j, main_step os raw rawp "ls | wc -l\n".toList = some (Command.launch j 1 []) ∧
      j.first_process =
        [{ rawp with argv := ["ls".toList, "|".toList, "wc".toList, "-l".toList] }] ∧
      (sys.fork 0 = 0 →
        ∃ l, launch_job h sys waits mypipe
            { first_job := [j], err := [], out := [], term := [] } ⟨0, by simp⟩ 1 =
            Outcome.child l ∧
          l.argv = ["ls".toList, "|".toList, "wc".toList, "-l".toList] ∧
          l.infile = STDIN_FILENO ∧ l.outfile = STDOUT_FILENO ∧
          ∀ fd fd', ChildOp.dup2 fd fd' ∉ launch_process sys getpid execvp_returns l) ∧
      (0 < sys.fork 0 →
        ∃ r, launch_job h sys waits mypipe
            { first_job := [j], err := [], out := [], term := [] } ⟨0, by simp⟩ 1 =
            Outcome.ok r ∧
          r.pipes = [] ∧
          r.launched.map (fun l => (l.argv, l.infile, l.outfile)) =
            [(["ls".toList, "|".toList, "wc".toList, "-l".toList], STDIN_FILENO,
              STDOUT_FILENO)]) := by
  refine ⟨{ raw with
            command := "ls".toList
            first_process :=
              [{ rawp with argv := ["ls".toList, "|".toList, "wc".toList, "-l".toList] }]
            stderr := STDERR_FILENO, stdin := STDIN_FILENO, stdout := STDOUT_FILENO },
    ?_, rfl, ?_, ?_⟩
  · unfold main_step
    rw [main_parse_ls_wc]
    simp only
    rw [if_neg (by decide), if_neg (by decide), if_neg (by decide), if_neg (by decide)]
    rfl
  · intro hfork
    refine ⟨{ argv := ["ls".toList, "|".toList, "wc".toList, "-l".toList], pgid := raw.pgid,
              infile := STDIN_FILENO, outfile := STDOUT_FILENO, errfile := STDERR_FILENO,
              foreground := 1 }, ?_, rfl, rfl, rfl, ?_⟩
    · exact launch_job_of_loop_child h sys waits mypipe
        { first_job := [{ raw with
            command := "ls".toList
            first_process :=
              [{ rawp with argv := ["ls".toList, "|".toList, "wc".toList, "-l".toList] }]
            stderr := STDERR_FILENO, stdin := STDIN_FILENO, stdout := STDOUT_FILENO }],
          err := [], out := [], term := [] } ⟨0, by simp⟩ 1 _
        (launch_job_loop_single_child sys 1 _ _ _ hfork)
    · intro fd fd'
      unfold launch_process
      simp
  · intro hfork
    obtain ⟨st, e1, e2, e3⟩ := launch_job_loop_single sys 1
      { raw with
        command := "ls".toList
        first_process :=
          [{ rawp with argv := ["ls".toList, "|".toList, "wc".toList, "-l".toList] }]
        stderr := STDERR_FILENO, stdin := STDIN_FILENO, stdout := STDOUT_FILENO }
      { rawp with argv := ["ls".toList, "|".toList, "wc".toList, "-l".toList] }
      { done := [], pgid := raw.pgid, infile := STDIN_FILENO, mypipe := mypipe,
        launched := [], pipes := [], closed := [] } hfork
    obtain ⟨r, hr, hl, hp, _⟩ := launch_job_of_loop h sys waits mypipe
      { first_job := [{ raw with
          command := "ls".toList
          first_process :=
            [{ rawp with argv := ["ls".toList, "|".toList, "wc".toList, "-l".toList] }]
          stderr := STDERR_FILENO, stdin := STDIN_FILENO, stdout := STDOUT_FILENO }],
        err := [], out := [], term := [] } ⟨0, by simp⟩ 1 st e1
    refine ⟨r, hr, ?_, ?_⟩
    · rw [hp, e2]
    · rw [hl, e3]; rfl

/-- Witness for C7: the line seen from the forked child (`fork` returns 0) and
from the shell on the sample system, whose first child has pid 200. -/
theorem ls_wc_single_stage_witness :
    (∃ j, main_step os_from_3 raw_job raw_process "ls | wc -l\n".toList =
        some (Command.launch j 1 []) ∧
      j.first_process =
        [{ raw_process with argv := ["ls".toList, "|".toList, "wc".toList, "-l".toList] }] ∧
      ∃ l, launch_job linux child_sys [] (0, 0)
          { first_job := [j], err := [], out := [], term := [] } ⟨0, by simp⟩ 1 =
          Outcome.child l ∧
        l.argv = ["ls".toList, "|".toList, "wc".toList, "-l".toList] ∧
        l.infile = STDIN_FILENO ∧ l.outfile = STDOUT_FILENO ∧
        ∀ fd fd', ChildOp.dup2 fd fd' ∉ launch_process child_sys 200 false l) ∧
    (∃ j, main_step os_from_3 raw_job raw_process "ls | wc -l\n".toList =
        some (Command.launch j 1 []) ∧
      j.first_process =
        [{ raw_process with argv := ["ls".toList, "|".toList, "wc".toList, "-l".toList] }] ∧
      ∃ r, launch_job linux sample_sys [] (0, 0)
          { first_job := [j], err := [], out := [], term := [] } ⟨0, by simp⟩ 1 =
          Outcome.ok r ∧
        r.pipes = [] ∧
        r.launched.map (fun l => (l.argv, l.infile, l.outfile)) =
          [(["ls".toList, "|".toList, "wc".toList, "-l".toList], STDIN_FILENO,
            STDOUT_FILENO)]) := by
  constructor
  · obtain ⟨j, h1, h2, h3, _⟩ :=
      ls_wc_single_stage os_from_3 raw_job raw_process linux child_sys [] (0, 0) 200 false
    exact ⟨j, h1, h2, h3 rfl⟩
  · obtain ⟨j, h1, h2, _, h4⟩ :=
      ls_wc_single_stage os_from_3 raw_job raw_process linux sample_sys [] (0, 0) 200 false
    exact ⟨j, h1, h2, h4 (by decide)⟩

/-- Claim C9, refuted as stated: for `cat < in.txt > out.txt` the path
`out.txt` is not opened at all, and no call of `open` passes `O_TRUNC`. -/
theorem cat_redirect_out_txt_not_opened :
    (¬ ∃ (j : job) (fg : Int) (calls : List Syscall) (flags : List OFlag) (mode : Option Nat)
        (fd : Int),
        main_step os_from_3 raw_job raw_process "cat < in.txt > out.txt\n".toList =
          some (Command.launch j fg calls) ∧
        Syscall.opened (some "out.txt".toList) flags mode fd ∈ calls) ∧
    (¬ ∃ (j : job) (fg : Int) (calls : List Syscall) (path : Option (List Char))
        (flags : List OFlag) (mode : Option Nat) (fd : Int),
        main_step os_from_3 raw_job raw_process "cat < in.txt > out.txt\n".toList =
          some (Command.launch j fg calls) ∧
        Syscall.opened path flags mode fd ∈ calls ∧ OFlag.O_TRUNC ∈ flags) := by
  have h1 : main_step os_from_3 raw_job raw_process "cat < in.txt > out.txt\n".toList =
      some (Command.launch
        { command := "cat".toList,
          first_process := [{ argv := ["cat".toList, "in.txt".toList, "out.txt".toList],
                              pid := 0, completed := 0, stopped := 0, status := 0 }],
          pgid := 0, notified := 0, tmodes := 0, stdin := 4, stdout := 6, stderr := 2 }
        1
        [Syscall.opened (some "in.txt".toList) [OFlag.O_RDONLY] none 3,
         Syscall.dup 3 4,
         Syscall.opened (some "in.txt".toList) [OFlag.O_WRONLY, OFlag.O_CREAT] (some 0o644) 5,
         Syscall.dup 5 6]) := by rfl
  constructor
  · rintro ⟨j, fg, calls, flags, mode, fd, hm, hin⟩
    rw [h1] at hm
    simp only [Option.some.injEq, Command.launch.injEq] at hm
    obtain ⟨_, _, hc⟩ := hm
    rw [← hc] at hin
    simp only [List.mem_cons, Syscall.opened.injEq, List.mem_singleton, reduceCtorEq,
      List.not_mem_nil, or_false, false_or] at hin
    rcases hin with ⟨hpath, _⟩ | ⟨hpath, _⟩ <;> revert hpath <;> decide
  · rintro ⟨j, fg, calls, path, flags, mode, fd, hm, hin, hfl⟩
    rw [h1] at hm
    simp only [Option.some.injEq, Command.launch.injEq] at hm
    obtain ⟨_, _, hc⟩ := hm
    rw [← hc] at hin
    simp only [List.mem_cons, Syscall.opened.injEq, List.mem_singleton, reduceCtorEq,
      List.not_mem_nil, or_false, false_or] at hin
    rcases hin with ⟨_, hflags, _⟩ | ⟨_, hflags, _⟩ <;> rw [hflags] at hfl <;>
      revert hfl <;> decide

/-- Claim C9, amended: for `cat < in.txt > out.txt` the job's `stdin` is the
duplicate of a read-only open of `in.txt`, its `stdout` is the duplicate of a
descriptor opened with the flags `O_WRONLY | O_CREAT` (no `O_TRUNC`) and mode
0644, and its `stderr` is `STDERR_FILENO`; these four calls are the only
ones. -/
theorem cat_redirect_both (os : Nat → Int) (raw : job) (rawp : process) :
    ∃ j p, main_step os raw rawp "cat < in.txt > out.txt\n".toList =
        some (Command.launch j 1
          [Syscall.opened (some "in.txt".toList) [OFlag.O_RDONLY] none (os 0),
           Syscall.dup (os 0) (os 1),
           Syscall.opened p [OFlag.O_WRONLY, OFlag.O_CREAT] (some 0o644) (os 2),
           Syscall.dup (os 2) (os 3)]) ∧
      j.stdin = os 1 ∧ j.stdout = os 3 ∧ j.stderr = STDERR_FILENO := by
  refine ⟨{ raw with
            command := "cat".toList
            first_process :=
              [{ rawp with argv := ["cat".toList, "in.txt".toList, "out.txt".toList] }]
            stderr := STDERR_FILENO, stdin := os 1, stdout := os 3 },
    some "in.txt".toList, ?_, rfl, rfl, rfl⟩
  unfold main_step
  rw [main_parse_cat]
  simp only
  rw [if_neg (by decide), if_neg (by decide), if_neg (by decide), if_neg (by decide)]
  rfl

/-! ## The argument vector of the job -/

end ShellProjet
